import Mathlib

/-!
# sample-e2b-on-aws: registry authentication, image materialisation, diff cache, server lifecycle

A shallow embedding of the Go sources

* `packages/orchestrator/internal/template/build/oci/oci.go`
* `packages/docker-reverse-proxy/internal/auth/aws.go`
* `packages/orchestrator/internal/sandbox/build/cache.go`
* `packages/orchestrator/internal/template/server/main.go`
* `packages/shared/pkg/env/env.go`

Calls into libraries (AWS SDK, `encoding/base64`, `tar2ext4`, `ttlcache`, `os`) are
modelled by their documented behaviour or taken as explicit outcomes supplied by the
environment; the repository functions themselves are translated statement by statement.
-/

namespace E2B

/-! ## Go values -/

/-- One byte of a Go string. -/
abbrev Byte := Fin 256

/-- A Go `string` / `[]byte` whose content is arbitrary binary data: a sequence of bytes. -/
abbrev GoString := List Byte

/-- The byte `':'` (0x3A). -/
def colon : Byte := 58

/-- A Go `error`: its `Error()` text and, when it was built with `%w`, the error it wraps. -/
inductive GoError where
  | plain (msg : String)
  | wrap (msg : String) (inner : GoError)
  deriving DecidableEq, Repr

/-- The text returned by `err.Error()`. -/
def GoError.Error : GoError → String
  | .plain msg => msg
  | .wrap msg _ => msg

/-- The error returned by `errors.Unwrap(err)`, if any. -/
def GoError.Unwrap : GoError → Option GoError
  | .plain _ => none
  | .wrap _ inner => some inner

/-- Go `errors.New(msg)` and `fmt.Errorf(msg)` without a `%w` verb. -/
def errorsNew (msg : String) : GoError := .plain msg

/-- Go `fmt.Errorf(pre + "%w", err)`: the text is `pre` followed by `err.Error()`, and the
result wraps `err`. -/
def errorfW (pre : String) (err : GoError) : GoError := .wrap (pre ++ err.Error) err

/-- Go `fmt.Errorf(pre + "%v", err)`: the text is `pre` followed by `err.Error()`, nothing is wrapped. -/
def errorfV (pre : String) (err : GoError) : GoError := .plain (pre ++ err.Error)

/-! ## `strings.SplitN` with a one-byte separator -/

/-- Go `strings.IndexByte(s, c)`: index of the first `c` in `s`, or `-1`. -/
def IndexByte : GoString → Byte → Int
  | [], _ => -1
  | b :: rest, c =>
    if b = c then 0
    else
      let m := IndexByte rest c
      if m < 0 then -1 else m + 1

/-- Go `strings.Count(s, sep)` for a one-byte separator. -/
def Count (s : GoString) (c : Byte) : Nat := s.count c

/-- The loop of Go `strings.genSplit`, run for at most `k` iterations (`k` is `n - 1 - i`):
each iteration cuts `s` at the first separator; the rest of `s` is the last piece. -/
def genSplitLoop (sep : Byte) (sepSave : Nat) : Nat → GoString → List GoString
  | 0, s => [s]
  | k + 1, s =>
    let m := IndexByte s sep
    if m < 0 then [s]
    else s.take (m.toNat + sepSave) :: genSplitLoop sep sepSave k (s.drop (m.toNat + 1))

/-- Go `strings.genSplit(s, sep, sepSave, n)` for a separator of exactly one byte (the only
kind this repository passes, so the `sep == ""` branch never runs). -/
def genSplit (s : GoString) (sep : Byte) (sepSave : Nat) (n : Int) : List GoString :=
  if n = 0 then []
  else
    let n₁ : Int := if n < 0 then (Count s sep : Int) + 1 else n
    let n₂ : Int := if n₁ > (s.length : Int) + 1 then (s.length : Int) + 1 else n₁
    genSplitLoop sep sepSave (n₂ - 1).toNat s

/-- Go `strings.SplitN(s, sep, n)` = `genSplit(s, sep, 0, n)`. -/
def SplitN (s : GoString) (sep : Byte) (n : Int) : List GoString := genSplit s sep 0 n

/-! ## ECR authentication (`oci.go`, `auth/aws.go`) -/

/-- How a Go call ends: it returns a value, or it panics (nil pointer dereference). -/
inductive Run (α : Type) where
  | returns (a : α)
  | panics
  deriving DecidableEq, Repr

/-- One element of `GetAuthorizationTokenOutput.AuthorizationData` (AWS SDK): all three fields are
Go pointers, `none` is the nil pointer. -/
structure AuthorizationData where
  AuthorizationToken : Option String
  ExpiresAt : Option Int
  ProxyEndpoint : Option String
  deriving DecidableEq, Repr

/-- Outcomes of the library calls made by `getECRAuth`, `GetAWSECRAuthToken` and
`HandleAWSECRToken`: what the AWS SDK, `encoding/base64`, the clock and `encoding/json` return. -/
structure AWSCalls where
  /-- `config.LoadDefaultConfig` (orchestrator) or `consts.GetAWSSession` (proxy): the error, if any -/
  loadConfig : Option GoError
  /-- `ecrClient.GetAuthorizationToken`: the error, or `result.AuthorizationData` -/
  getAuthorizationToken : Except GoError (List AuthorizationData)
  /-- `base64.StdEncoding.DecodeString` -/
  decodeString : String → Except GoError GoString
  /-- `int(time.Until(t).Seconds())` -/
  secondsUntil : Int → Int
  /-- `time.Now().Format(time.RFC3339)` -/
  nowRFC3339 : String
  /-- `json.Marshal` of the map with keys `token`, `expires_in`, `issued_at` -/
  jsonMarshal : GoString → Int → String → Except GoError GoString

/-- Go `authn.Basic`. -/
structure Basic where
  Username : GoString
  Password : GoString
  deriving DecidableEq, Repr

/-- Go `getECRAuth` (oci.go): the returned pair `(authenticator, error)`. -/
def getECRAuth (aws : AWSCalls) : Run (Option Basic × Option GoError) :=
  match aws.loadConfig with
  | some err => .returns (none, some (errorfW "failed to load AWS config: " err))
  | none =>
    match aws.getAuthorizationToken with
    | .error err => .returns (none, some (errorfW "error getting ECR auth token: " err))
    | .ok authorizationData =>
      match authorizationData with
      | [] => .returns (none, some (errorsNew "no authorization data returned"))
      | authData :: _ =>
        match authData.AuthorizationToken with
        | none => .panics
        | some token =>
          match aws.decodeString token with
          | .error err => .returns (none, some (errorfW "error decoding auth token: " err))
          | .ok decodedToken =>
            let parts := SplitN decodedToken colon 2
            if parts.length ≠ 2 then
              .returns (none, some (errorsNew "invalid auth token format"))
            else
              .returns (some { Username := parts.getD 0 [], Password := parts.getD 1 [] }, none)

/-- Go `AWSAuthResponse` (auth/aws.go). -/
structure AWSAuthResponse where
  Token : String
  ExpiresAt : Int
  ProxyEndpoint : String
  deriving DecidableEq, Repr

/-- Go `GetAWSECRAuthToken` (auth/aws.go). -/
def GetAWSECRAuthToken (aws : AWSCalls) : Run (Option AWSAuthResponse × Option GoError) :=
  match aws.loadConfig with
  | some err => .returns (none, some (errorfV "failed to get AWS session: " err))
  | none =>
    match aws.getAuthorizationToken with
    | .error err => .returns (none, some (errorfV "failed to get ECR authorization token: " err))
    | .ok authorizationData =>
      match authorizationData with
      | [] => .returns (none, some (errorsNew "no authorization data returned from ECR"))
      | authData :: _ =>
        match authData.AuthorizationToken, authData.ExpiresAt, authData.ProxyEndpoint with
        | some token, some expiresAt, some proxyEndpoint =>
          .returns (some { Token := token, ExpiresAt := expiresAt, ProxyEndpoint := proxyEndpoint }, none)
        | _, _, _ => .panics

/-- What `HandleAWSECRToken` does to the outside: log lines and calls on the `http.ResponseWriter`. -/
inductive HttpEffect where
  | logPrintf (msg : String)
  | httpError (body : String) (code : Nat)
  | headerSet (key value : String)
  | writeHeader (code : Nat)
  | write (body : GoString)
  deriving DecidableEq, Repr

/-- Go `http.StatusInternalServerError`. -/
def StatusInternalServerError : Nat := 500

/-- Go `http.StatusOK`. -/
def StatusOK : Nat := 200

/-- Go `HandleAWSECRToken` (auth/aws.go): the returned pair `(token, error)` and the effects on
the log and on the response writer, in order. -/
def HandleAWSECRToken (aws : AWSCalls) : Run ((GoString × Option GoError) × List HttpEffect) :=
  match GetAWSECRAuthToken aws with
  | .panics => .panics
  | .returns (_, some err) =>
    .returns (([], some err),
      [.logPrintf ("Error getting AWS ECR auth token: " ++ err.Error),
       .httpError "Failed to get ECR authorization token" StatusInternalServerError])
  | .returns (none, none) => .panics
  | .returns (some authResponse, none) =>
    match aws.decodeString authResponse.Token with
    | .error err =>
      .returns (([], some err),
        [.logPrintf ("Error decoding AWS ECR auth token: " ++ err.Error),
         .httpError "Failed to decode ECR authorization token" StatusInternalServerError])
    | .ok decodedToken =>
      let tokenParts := SplitN decodedToken colon 2
      if tokenParts.length ≠ 2 then
        .returns (([], some (errorsNew "invalid ECR token format")),
          [.logPrintf "Invalid AWS ECR auth token format",
           .httpError "Invalid ECR authorization token format" StatusInternalServerError])
      else
        let token := tokenParts.getD 1 []
        match aws.jsonMarshal token (aws.secondsUntil authResponse.ExpiresAt) aws.nowRFC3339 with
        | .error err =>
          .returns (([], some err),
            [.logPrintf ("Error marshaling token response: " ++ err.Error),
             .httpError "Failed to create token response" StatusInternalServerError])
        | .ok responseJSON =>
          .returns ((token, none),
            [.headerSet "Content-Type" "application/json",
             .writeHeader StatusOK,
             .write responseJSON])

/-! ## Diff cache (`sandbox/build/cache.go`) -/

/-- Go `time.Duration`: a number of nanoseconds. -/
abbrev Duration := Int

/-- An instant, in nanoseconds since an arbitrary origin. -/
abbrev Time := Int

/-- Go `time.Second`. -/
def Second : Duration := 1000000000

/-- Go `time.Hour`. -/
def Hour : Duration := 3600 * Second

/-- Go `const buildExpiration = time.Hour * 25` (cache.go). -/
def buildExpiration : Duration := Hour * 25

/-- Modelled from the spec: the diff kind ("enumerated: e.g. block-diff, filesystem-snapshot"),
whose Go type `DiffType` is declared in a file of package `build` that is not among the
sources. A kind is represented by its name; the cache only passes it on. -/
abbrev DiffType := String

/-- The object behind a non-nil value of the Go interface `Diff`: `addr` is the identity of the
allocation (two objects are the same object iff they have the same address) and `CacheKey` is
what its method `CacheKey()` returns. -/
structure DiffObj where
  addr : Nat
  CacheKey : String
  deriving DecidableEq, Repr

/-- A value of the Go interface type `Diff`; `none` is the nil interface value. -/
abbrev Diff := Option DiffObj

/-- Modelled from the spec: `newStorageDiff(...).CacheKey()` and `storagePath`, whose
declarations are in files of package `build` that are not among the sources. Following the data
model ("a cache key derived deterministically from (build identity, diff kind, block size)") the
key of a fresh storage diff is a function of the three arguments. -/
structure KeyDerivation where
  cacheKey : String → DiffType → Int → String
  storagePath : String → DiffType → String

/-- Modelled from the spec: Go `newStorageDiff(buildId, diffType, blockSize)`, whose body is not
among the sources, returns a freshly allocated object (at address `addr`) whose cache key is
derived from the arguments. -/
def newStorageDiff (kd : KeyDerivation) (addr : Nat) (buildId : String) (diffType : DiffType)
    (blockSize : Int) : DiffObj :=
  { addr := addr, CacheKey := kd.cacheKey buildId diffType blockSize }

/-- A `ttlcache.Item[string, Diff]`. -/
structure Item where
  key : String
  value : Diff
  ttl : Duration
  expiresAt : Time
  deriving DecidableEq, Repr

/-- The `ttlcache` method `Item.isExpiredUnsafe`, read at instant `now`. -/
def Item.isExpired (now : Time) (i : Item) : Bool :=
  if i.ttl ≤ 0 then false else decide (i.expiresAt < now)

/-- The `ttlcache` constant `DefaultTTL`. -/
def DefaultTTL : Duration := 0

/-- The `ttlcache` function `newItem` (and the result of `Item.update`): an item created or
overwritten at instant `now` expires `ttl` later when `ttl` is positive, and never otherwise. -/
def newItem (now : Time) (key : String) (value : Diff) (ttl : Duration) : Item :=
  { key := key, value := value, ttl := ttl, expiresAt := if ttl ≤ 0 then 0 else now + ttl }

/-- A `ttlcache.Cache[string, Diff]` without capacity limit and without loader, as built by
`NewDiffStore`: the default time-to-live, the touch-on-hit switch, and the items, most recently
used first, at most one per key. -/
structure Cache where
  ttl : Duration
  disableTouchOnHit : Bool
  items : List Item
  deriving DecidableEq, Repr

/-- The item stored under `key`, expired or not (`c.items.values[key]`). -/
def Cache.find (c : Cache) (key : String) : Option Item :=
  c.items.find? (fun i => i.key == key)

/-- Store `item` under its key, replacing what was there, as the most recently used item. -/
def Cache.put (c : Cache) (item : Item) : Cache :=
  { c with items := item :: c.items.filter (fun i => i.key != item.key) }

/-- The `ttlcache` method `Cache.get(key, touch)` at instant `now`: an absent or expired item is
a miss; a hit moves the item to the front and, when touching, restarts its time-to-live. -/
def Cache.get (c : Cache) (now : Time) (key : String) (touch : Bool) : Option Item × Cache :=
  match c.find key with
  | none => (none, c)
  | some item =>
    if item.isExpired now then (none, c)
    else if touch && decide (item.ttl > 0) then
      let item₁ := { item with expiresAt := now + item.ttl }
      (some item₁, c.put item₁)
    else (some item, c.put item)

/-- The `ttlcache` method `Cache.Set(key, value, ttl)` at instant `now`, for `ttl` that is
`DefaultTTL` or an explicit duration: overwrite the live item or insert a new one. -/
def Cache.Set (c : Cache) (now : Time) (key : String) (value : Diff) (ttl : Duration) :
    Item × Cache :=
  let ttl₁ := if ttl = DefaultTTL then c.ttl else ttl
  match c.get now key false with
  | (some _, c₁) => (newItem now key value ttl₁, c₁.put (newItem now key value ttl₁))
  | (none, _) => (newItem now key value ttl₁, c.put (newItem now key value ttl₁))

/-- The `ttlcache` method `Cache.GetOrSet(key, value, WithTTL(ttl))` at instant `now`: the item
returned and whether it was found. -/
def Cache.GetOrSet (c : Cache) (now : Time) (key : String) (value : Diff) (ttl : Duration) :
    (Item × Bool) × Cache :=
  match c.get now key (!c.disableTouchOnHit) with
  | (some item, c₁) => ((item, true), c₁)
  | (none, _) =>
    let r := c.Set now key value ttl
    ((r.1, false), r.2)

/-- Go `DiffStore` (cache.go); the bucket handle and the context are only passed on to `Init`. -/
structure DiffStore where
  cache : Cache
  deriving DecidableEq, Repr

/-- The store returned by a successful `NewDiffStore`: an empty cache with default
time-to-live `buildExpiration`. -/
def NewDiffStore : DiffStore :=
  { cache := { ttl := buildExpiration, disableTouchOnHit := false, items := [] } }

/-- A call made by the diff store on a diff: `Init` or `Close`. -/
inductive DiffCall where
  | Init (d : DiffObj)
  | Close (d : DiffObj)
  deriving DecidableEq, Repr

/-- The result of `DiffStore.Get`: the pair `(Diff, error)` returned, the store afterwards, and
the calls made on diffs, in order. -/
structure GetResult where
  value : Diff
  err : Option GoError
  store : DiffStore
  calls : List DiffCall
  deriving DecidableEq, Repr

/-- Go `DiffStore.Get` (cache.go) at instant `now`. `addr` is the address at which
`newStorageDiff` allocates, `Init d` is what `d.Init(s.ctx, s.bucket)` returns (`none` is nil). -/
def DiffStore.Get (kd : KeyDerivation) (Init : DiffObj → Option GoError) (now : Time) (addr : Nat)
    (s : DiffStore) (buildId : String) (diffType : DiffType) (blockSize : Int) : GetResult :=
  let diff := newStorageDiff kd addr buildId diffType blockSize
  let r := s.cache.GetOrSet now diff.CacheKey (some diff) buildExpiration
  let source := r.1.1
  let found := r.1.2
  let s₁ : DiffStore := { cache := r.2 }
  let value := source.value
  if value = none then
    { value := none,
      err := some (errorsNew ("failed to get source from cache: " ++ diff.CacheKey)),
      store := s₁, calls := [] }
  else if !found then
    match Init diff with
    | some err =>
      { value := none, err := some (errorfW "failed to init source: " err),
        store := s₁, calls := [.Init diff] }
    | none => { value := value, err := none, store := s₁, calls := [.Init diff] }
  else { value := value, err := none, store := s₁, calls := [] }

/-- Go `DiffStore.Add` (cache.go) at instant `now`. -/
def DiffStore.Add (kd : KeyDerivation) (now : Time) (s : DiffStore) (buildId : String)
    (t : DiffType) (d : Diff) : DiffStore :=
  let storagePath := kd.storagePath buildId t
  { cache := (s.cache.Set now storagePath d buildExpiration).2 }

/-- The unexpired item under `key` at instant `now`, if any: what a lookup would hit. -/
def Cache.live (c : Cache) (now : Time) (key : String) : Option Item :=
  match c.find key with
  | none => none
  | some item => if item.isExpired now then none else some item

/-! ## Image materialisation (`oci.go`, `ToExt4`) -/

/-- Go `const ToMBShift = 20` (oci.go). -/
def ToMBShift : Nat := 20

/-- Go `strings.Contains(s, substr)` on the characters of the two texts. -/
def containsChars : List Char → List Char → Bool
  | [], sub => sub.isEmpty
  | c :: rest, sub => sub.isPrefixOf (c :: rest) || containsChars rest sub

/-- Go `strings.Contains(s, substr)`. -/
def Contains (s substr : String) : Bool := containsChars s.toList substr.toList

/-- The files on the local disk: path and content, at most one entry per path. -/
abbrev FileSystem := List (String × GoString)

/-- The content of the file at `path`, if the file exists. -/
def FileSystem.lookup (fs : FileSystem) (path : String) : Option GoString :=
  (fs.find? (fun f => f.1 == path)).map (fun f => f.2)

/-- The disk after the file at `path` was created or overwritten with `content`. -/
def FileSystem.writeFile (fs : FileSystem) (path : String) (content : GoString) : FileSystem :=
  (path, content) :: fs.filter (fun f => f.1 != path)

/-- A `v1.Image`, as far as `ToExt4` uses it: the flattened tar stream that
`mutate.Extract(img)` reads. -/
structure Image where
  tar : GoString
  deriving DecidableEq, Repr

/-- Outcomes of the library calls made by `ToExt4`. -/
structure ToExt4Calls where
  /-- `os.Create(path)`: the error, if the file cannot be created -/
  Create : String → Option GoError
  /-- `tar2ext4.Convert(r, file, ConvertWhiteout, MaximumDiskSize(sizeLimit))`: what it wrote
  to the file before returning, and the error it returned, if any -/
  Convert : GoString → Int → GoString × Option GoError
  /-- `rootfsFile.Close()`: the error, if any -/
  Close : Option GoError

/-- What `ToExt4` does besides writing the file, in order. -/
inductive ToExt4Effect where
  | create (path : String)
  | convert (sizeLimit : Int)
  | closeFile (path : String)
  | reportError (err : GoError)
  | reportEvent (name : String)
  | closeReader
  deriving DecidableEq, Repr

/-- The result of `ToExt4`: the error returned, the disk afterwards, the effects in order. -/
structure ToExt4Result where
  err : Option GoError
  fs : FileSystem
  effects : List ToExt4Effect
  deriving DecidableEq, Repr

/-- The deferred function of `ToExt4` that closes the rootfs file and reports the outcome. -/
def closeRootfs (os : ToExt4Calls) (rootfsPath : String) : List ToExt4Effect :=
  match os.Close with
  | some rootfsErr =>
    [.closeFile rootfsPath, .reportError (errorfW "error closing rootfs file: " rootfsErr)]
  | none => [.closeFile rootfsPath, .reportEvent "closed rootfs file"]

/-- Go `ToExt4` (oci.go). The deferred calls run on return, last deferred first: the rootfs file
is closed, then the tar reader. -/
def ToExt4 (os : ToExt4Calls) (fs : FileSystem) (img : Image) (rootfsPath : String)
    (sizeLimit : Int) : ToExt4Result :=
  match os.Create rootfsPath with
  | some err =>
    { err := some (errorfW "error creating rootfs file: " err), fs := fs,
      effects := [.create rootfsPath, .closeReader] }
  | none =>
    let fs₁ := fs.writeFile rootfsPath []
    let conv := os.Convert img.tar sizeLimit
    let fs₂ := fs₁.writeFile rootfsPath conv.1
    let effects := [.create rootfsPath, .convert sizeLimit] ++ closeRootfs os rootfsPath
      ++ [.closeReader]
    match conv.2 with
    | some err =>
      if Contains err.Error "disk exceeded maximum size" then
        { err := some (errorsNew ("build failed - exceeded maximum size "
            ++ toString (sizeLimit >>> ToMBShift) ++ " MB")),
          fs := fs₂, effects := effects }
      else
        { err := some (errorfW "error converting tar to ext4: " err), fs := fs₂,
          effects := effects }
    | none => { err := none, fs := fs₂, effects := effects }

/-! ## Environment (`shared/pkg/env/env.go`) -/

/-- Go `GetEnv[string](key, defaultValue)`: `getenv` is `os.Getenv`, which returns the empty
string for a variable that is not set. -/
def GetEnvString (getenv : String → String) (key : String) (defaultValue : String) : String :=
  let val := getenv key
  if val = "" then defaultValue else val

/-- Go `var environment = GetEnv("ENVIRONMENT", "local")`. -/
def environment (getenv : String → String) : String := GetEnvString getenv "ENVIRONMENT" "local"

/-- Go `IsLocal`. -/
def IsLocal (getenv : String → String) : Bool := environment getenv == "local"

/-! ## Template server lifecycle (`template/server/main.go`) -/

/-- Modelled from the spec: the generated type `templatemanager.HealthState` is not among the
sources; the health state is "enumerated {Healthy, Draining}". -/
inductive HealthState where
  | Healthy
  | Draining
  deriving DecidableEq, Repr

/-- Go `ServerStore`, reduced to the field that `New` and `Close` assign; the wait group is
acted upon through the effect `wgWait`. -/
structure ServerStore where
  healthStatus : HealthState
  deriving DecidableEq, Repr

/-- Go `CheckRequired` (template/constants/main.go), over the three package variables it reads. -/
def CheckRequired (AWSAccountID ECRRepository AWSRegion : String) : Option GoError :=
  let missing₀ : List String := []
  let missing₁ := if AWSAccountID = "" then missing₀ ++ ["AWS_ACCOUNT_ID"] else missing₀
  let missing₂ := if ECRRepository = "" then missing₁ ++ ["AWS_ECR_REPOSITORY"] else missing₁
  let missing₃ := if AWSRegion = "" then missing₂ ++ ["AWS_REGION"] else missing₂
  if missing₃.length > 0 then
    some (errorsNew ("missing environment variables: " ++ ", ".intercalate missing₃))
  else none

/-- Outcomes of the calls made by `New` before it builds the store. -/
structure NewCalls where
  /-- `constants.CheckRequired()` -/
  CheckRequired : Option GoError
  /-- `config.LoadDefaultConfig`: the error, if any -/
  LoadDefaultConfig : Option GoError
  /-- `storage.GetTemplateStorageProvider`: the error, if any -/
  GetTemplateStorageProvider : Option GoError

/-- How `New` ends: `log.Fatalf` stops the process, or it returns `(store, error)`. -/
inductive NewOutcome where
  | fatal (msg : String)
  | returns (store : Option ServerStore) (err : Option GoError)
  deriving DecidableEq, Repr

/-- Go `New` (template/server/main.go). -/
def New (calls : NewCalls) : NewOutcome :=
  match calls.CheckRequired with
  | some err => .fatal ("Validation for environment variables failed: " ++ err.Error)
  | none =>
    match calls.LoadDefaultConfig with
    | some err => .returns none (some (errorfV "error creating artifact registry client: " err))
    | none =>
      match calls.GetTemplateStorageProvider with
      | some err =>
        .returns none (some (errorfV "error getting template storage provider: " err))
      | none => .returns (some { healthStatus := .Healthy }) none

/-- What `Close` does, in order: log lines, the assignment to `healthStatus`, `time.Sleep`, and
`s.wg.Wait()`, which blocks until the count of running builds is zero. -/
inductive CloseEffect where
  | logInfo (msg : String)
  | setHealthStatus (h : HealthState)
  | sleep (d : Duration)
  | wgWait
  deriving DecidableEq, Repr

/-- The result of `Close`: the error returned, the store afterwards, the effects in order. -/
structure CloseResult where
  err : Option GoError
  store : ServerStore
  effects : List CloseEffect
  deriving DecidableEq, Repr

/-- Go `(*ServerStore).Close(ctx)`; `ctxDone` says whether `ctx.Done()` is ready when the
`select` runs, `isLocal` is `env.IsLocal()`. -/
def ServerStore.Close (isLocal : Bool) (ctxDone : Bool) (s : ServerStore) : CloseResult :=
  if ctxDone then
    { err := some (errorsNew "context canceled during server graceful shutdown"),
      store := s, effects := [] }
  else
    { err := none,
      store := { s with healthStatus := .Draining },
      effects :=
        [.logInfo "marking service as draining", .setHealthStatus .Draining]
        ++ (if !isLocal then [.sleep (5 * Second)] else [])
        ++ [.logInfo "waiting for all jobs to finish", .wgWait]
        ++ (if !isLocal then
              [.logInfo "waiting before shutting down server", .sleep (15 * Second)]
            else []) }

/-- The store after a sequence of `Close` calls, each with its own context. -/
def closeAll (isLocal : Bool) : List Bool → ServerStore → ServerStore
  | [], s => s
  | ctxDone :: rest, s => closeAll isLocal rest (ServerStore.Close isLocal ctxDone s).store

/-- The effects of `Close` other than log lines. -/
def CloseEffect.isLog : CloseEffect → Bool
  | .logInfo _ => true
  | _ => false

/-! ## Image size (`oci.go`, `GetImageSize`) -/

/-- The value a Go `int64` holds after an arithmetic result `x`: two's complement wrap-around
into the range from -2^63 to 2^63 - 1. -/
def wrapInt64 (x : Int) : Int :=
  (x + 9223372036854775808) % 18446744073709551616 - 9223372036854775808

/-- The loop of `GetImageSize` over the layers from position `index` on, `imageSize` being the
running total: each element is what `layer.Size()` returns for that layer. -/
def sumLayerSizes : List (Except GoError Int) → Nat → Int → Int × Option GoError
  | [], _, imageSize => (imageSize, none)
  | .error err :: _, index, _ =>
    (0, some (errorfW ("error getting layer (" ++ toString index ++ ") size: ") err))
  | .ok layerSize :: rest, index, imageSize =>
    sumLayerSizes rest (index + 1) (wrapInt64 (imageSize + layerSize))

/-- Go `GetImageSize` (oci.go): `layers` is what `img.Layers()` returns, with for each layer
what its `Size()` returns; the result is the pair `(int64, error)`. -/
def GetImageSize (layers : Except GoError (List (Except GoError Int))) : Int × Option GoError :=
  match layers with
  | .error err => (0, some (errorfW "error getting image layers: " err))
  | .ok ls => sumLayerSizes ls 0 0

/-! ## Eviction (`cache.go`, the callback registered by `NewDiffStore`) -/

/-- What one run of the eviction callback did: the calls made on diffs and the lines printed,
each in order. -/
structure EvictionRun where
  calls : List DiffCall
  printed : List String
  deriving DecidableEq, Repr

/-- The function that `NewDiffStore` registers with `cache.OnEviction`, run on an evicted
`item`; `Close d` is what `d.Close()` returns (`none` is nil). Calling `Close` on a nil `Diff`
panics. -/
def onEviction (Close : DiffObj → Option GoError) (item : Item) : Run EvictionRun :=
  match item.value with
  | none => .panics
  | some buildData =>
    match Close buildData with
    | some err =>
      .returns
        { calls := [.Close buildData],
          printed := ["[build data cache]: failed to cleanup build data for item " ++ item.key
            ++ ": " ++ err.Error ++ "\n"] }
    | none => .returns { calls := [.Close buildData], printed := [] }

/-- The `ttlcache` method `Cache.DeleteExpired` at instant `now`: the expired items, which are
removed from the cache and handed to the eviction callback, and the cache without them. -/
def Cache.DeleteExpired (c : Cache) (now : Time) : List Item × Cache :=
  (c.items.filter (fun i => i.isExpired now),
   { c with items := c.items.filter (fun i => !i.isExpired now) })

/-- One cleanup pass of the cache started by `NewDiffStore` (`go cache.Start()`) at instant
`now`: the store afterwards and, for every evicted item, the run of the eviction callback on it.
The cache removes an item before it starts the callback for it. -/
def DiffStore.evictExpired (Close : DiffObj → Option GoError) (now : Time) (s : DiffStore) :
    DiffStore × List (Item × Run EvictionRun) :=
  let r := s.cache.DeleteExpired now
  ({ cache := r.2 }, r.1.map (fun item => (item, onEviction Close item)))

/-! ## Concurrent calls of `DiffStore.Get`

`DiffStore.Get` holds no lock of its own. `GetOrSet` runs under the mutex of the cache, so it is
one atomic step; what follows it in `Get` (the nil check, `Init` for the caller that missed, the
return) is a second step, and the steps of different callers interleave freely. -/

/-- What a call of `DiffStore.Get` holds after line 59: the diff it constructed, the value of
the item that `GetOrSet` returned, and whether it was found. -/
structure Looked where
  diff : DiffObj
  value : Diff
  found : Bool
  deriving DecidableEq, Repr

/-- The first step of `DiffStore.Get` (lines 53 to 61): construct the diff and run `GetOrSet`. -/
def DiffStore.GetLookup (kd : KeyDerivation) (now : Time) (addr : Nat) (s : DiffStore)
    (buildId : String) (diffType : DiffType) (blockSize : Int) : Looked × DiffStore :=
  let diff := newStorageDiff kd addr buildId diffType blockSize
  let r := s.cache.GetOrSet now diff.CacheKey (some diff) buildExpiration
  ({ diff := diff, value := r.1.1.value, found := r.1.2 }, { cache := r.2 })

/-- The second step of `DiffStore.Get` (lines 62 to 73): the pair returned and the calls made. -/
def DiffStore.GetFinish (Init : DiffObj → Option GoError) (l : Looked) :
    (Diff × Option GoError) × List DiffCall :=
  if l.value = none then
    ((none, some (errorsNew ("failed to get source from cache: " ++ l.diff.CacheKey))), [])
  else if !l.found then
    match Init l.diff with
    | some err => ((none, some (errorfW "failed to init source: " err)), [.Init l.diff])
    | none => ((l.value, none), [.Init l.diff])
  else ((l.value, none), [])

/-- The state of one caller of `DiffStore.Get`: not yet started (it will allocate its diff at
`addr`), between its two steps, or returned with the pair `(Diff, error)`. -/
inductive GetCaller where
  | waiting (addr : Nat)
  | looked (l : Looked)
  | returned (value : Diff) (err : Option GoError)
  deriving DecidableEq, Repr

/-- Several goroutines calling `DiffStore.Get` with the same arguments: the shared store, the
state of each caller, and the `Init` calls made so far, in order. -/
structure ConcurrentGets where
  store : DiffStore
  callers : List GetCaller
  calls : List DiffCall
  deriving DecidableEq, Repr

/-- Caller `i` performs its next step. -/
def ConcurrentGets.step (kd : KeyDerivation) (Init : DiffObj → Option GoError) (now : Time)
    (buildId : String) (diffType : DiffType) (blockSize : Int)
    (c : ConcurrentGets) (i : Nat) : ConcurrentGets :=
  match c.callers[i]? with
  | some (.waiting addr) =>
    let r := DiffStore.GetLookup kd now addr c.store buildId diffType blockSize
    { store := r.2, callers := c.callers.set i (.looked r.1), calls := c.calls }
  | some (.looked l) =>
    let r := DiffStore.GetFinish Init l
    { store := c.store, callers := c.callers.set i (.returned r.1.1 r.1.2),
      calls := c.calls ++ r.2 }
  | _ => c

/-- The callers take steps in the order given by the schedule `sched`. -/
def ConcurrentGets.run (kd : KeyDerivation) (Init : DiffObj → Option GoError) (now : Time)
    (buildId : String) (diffType : DiffType) (blockSize : Int) :
    List Nat → ConcurrentGets → ConcurrentGets
  | [], c => c
  | i :: sched, c =>
    ConcurrentGets.run kd Init now buildId diffType blockSize sched
      (ConcurrentGets.step kd Init now buildId diffType blockSize c i)

/-- The start: callers that will allocate at the addresses `addrs`, none of which has taken a
step, and no `Init` call yet. -/
def ConcurrentGets.start (s : DiffStore) (addrs : List Nat) : ConcurrentGets :=
  { store := s, callers := addrs.map GetCaller.waiting, calls := [] }

/-- A caller that missed the cache and has not yet called `Init`. -/
def GetCaller.owesInit : GetCaller → Bool
  | .looked l => !l.found
  | _ => false

/-- A caller is consistent with `d` being the diff stored under the key. -/
def GetCaller.agrees (d : DiffObj) : GetCaller → Prop
  | .waiting _ => True
  | .looked l => l.value = some d ∧ (l.found = false → l.diff = d)
  | .returned value err => (value = some d ∧ err = none) ∨ (value = none ∧ err ≠ none)

/-- What holds of concurrent `Get` calls at every moment: either nobody has looked the key up
yet, or the cache holds a live entry with the diff `d` of the caller that missed, every caller
agrees with `d`, and that one caller either still owes its `Init` or has made the only call. -/
def ConcurrentGets.Inv (now : Time) (key : String) (c : ConcurrentGets) : Prop :=
  (c.store.cache.live now key = none ∧ c.calls = [] ∧
    ∀ x ∈ c.callers, ∃ addr, x = GetCaller.waiting addr) ∨
  (∃ (d : DiffObj) (item : Item),
    c.store.cache.live now key = some item ∧ item.value = some d ∧
    (∀ x ∈ c.callers, GetCaller.agrees d x) ∧
    ((c.callers.countP GetCaller.owesInit = 1 ∧ c.calls = []) ∨
     (c.callers.countP GetCaller.owesInit = 0 ∧ c.calls = [.Init d])))

/-! ## `GetEnv` (`shared/pkg/env/env.go`) -/

/-- The environment of the process: names and values. -/
abbrev Environ := List (String × String)

/-- Go `os.Getenv(key)`: the value of the variable, or the empty string when it is not set. -/
def Getenv (environ : Environ) (key : String) : String :=
  match environ.find? (fun e => e.1 == key) with
  | some e => e.2
  | none => ""

/-- Go `strconv.ParseBool(str)`; `none` stands for the error. -/
def ParseBool (str : String) : Option Bool :=
  if str = "1" ∨ str = "t" ∨ str = "T" ∨ str = "TRUE" ∨ str = "true" ∨ str = "True" then
    some true
  else if str = "0" ∨ str = "f" ∨ str = "F" ∨ str = "FALSE" ∨ str = "false" ∨ str = "False" then
    some false
  else none

/-- The value of a decimal digit character, `none` for any other character. -/
def digitValue (c : Char) : Option Nat :=
  if '0' ≤ c ∧ c ≤ '9' then some (c.toNat - '0'.toNat) else none

/-- The digit loop of Go `strconv.ParseUint` in base 10, started with the value `n`: `none`
when a character is not a decimal digit. -/
def parseDigits : List Char → Nat → Option Nat
  | [], n => some n
  | c :: rest, n =>
    match digitValue c with
    | none => none
    | some d => parseDigits rest (n * 10 + d)

/-- The number written by a non-empty string of decimal digits, as Go `strconv.ParseUint(s, 10,
64)` reads it; `none` for the empty string and for any other character. (For a number that does
not fit in 64 bits `ParseUint` reports a range error, which `ParseInt` turns into its own range
error, as does the cutoff test of `ParseInt` on the exact number.) -/
def parseUnsigned (s : List Char) : Option Nat :=
  if s = [] then none else parseDigits s 0

/-- Go `strconv.ParseInt(s, 10, bitSize)` for `bitSize` 32 or 64: an optional sign, then decimal
digits, then the range check against `1 << (bitSize - 1)`; `none` stands for any error. -/
def ParseInt (s : String) (bitSize : Nat) : Option Int :=
  match s.toList with
  | [] => none
  | c :: rest =>
    let neg := c == '-'
    let digits := if c == '+' || c == '-' then rest else c :: rest
    match parseUnsigned digits with
    | none => none
    | some un =>
      let cutoff := 2 ^ (bitSize - 1)
      if !neg && decide (un ≥ cutoff) then none
      else if neg && decide (un > cutoff) then none
      else some (if neg then -(un : Int) else (un : Int))

/-- Go `strconv.Atoi(s)`, which reads `s` as `ParseInt(s, 10, 0)` does: `intSize` is
`strconv.IntSize`, the width of `int` on the platform. -/
def Atoi (intSize : Nat) (s : String) : Option Int := ParseInt s intSize

/-- Go `strings.IndexRune(s, c)` on the characters of `s`: the position of the first `c`, or
`-1`. -/
def IndexRune : List Char → Char → Int
  | [], _ => -1
  | b :: rest, c =>
    if b = c then 0
    else
      let m := IndexRune rest c
      if m < 0 then -1 else m + 1

/-- The loop of Go `strings.genSplit` on characters, run for at most `k` iterations. -/
def genSplitRunesLoop (sep : Char) (sepSave : Nat) : Nat → List Char → List (List Char)
  | 0, s => [s]
  | k + 1, s =>
    let m := IndexRune s sep
    if m < 0 then [s]
    else s.take (m.toNat + sepSave)
      :: genSplitRunesLoop sep sepSave k (s.drop (m.toNat + 1))

/-- Go `strings.genSplit(s, sep, sepSave, n)` on characters, for a separator of one ASCII
character. -/
def genSplitRunes (s : List Char) (sep : Char) (sepSave : Nat) (n : Int) : List (List Char) :=
  if n = 0 then []
  else
    let n₁ : Int := if n < 0 then (s.count sep : Int) + 1 else n
    let n₂ : Int := if n₁ > (s.length : Int) + 1 then (s.length : Int) + 1 else n₁
    genSplitRunesLoop sep sepSave (n₂ - 1).toNat s

/-- Go `strings.Split(s, sep)` = `genSplit(s, sep, 0, -1)`, for a separator of one character. -/
def Split (s : String) (sep : Char) : List String :=
  (genSplitRunes s.toList sep 0 (-1)).map String.mk

/-- Go `unicode.IsSpace(r)`. -/
def IsSpace (r : Char) : Bool :=
  let n := r.toNat
  if n ≤ 255 then
    n = 9 || n = 10 || n = 11 || n = 12 || n = 13 || n = 32 || n = 133 || n = 160
  else
    n = 5760 || (8192 ≤ n && n ≤ 8202) || n = 8232 || n = 8233 || n = 8239 || n = 8287
      || n = 12288

/-- Go `strings.TrimSpace(s)`: `s` without its leading and trailing white space. -/
def TrimSpace (s : String) : String :=
  String.mk ((s.toList.dropWhile IsSpace).rdropWhile IsSpace)

/-- A Go `float64`, which `GetEnv` only passes on: its 64 bits. -/
structure Float64 where
  bits : Nat
  deriving DecidableEq, Repr

/-- The argument `defaultValue` of `GetEnv[T]` and its result, with the dynamic type that the
type switch inspects; `other` is a value of any type that the switch does not list, named by
its type and its printed form. -/
inductive EnvValue where
  | bool (v : Bool)
  | int (v : Int)
  | int64 (v : Int)
  | float64 (v : Float64)
  | string (v : String)
  | strings (v : List String)
  | duration (v : Duration)
  | other (typeName : String) (printed : String)
  deriving DecidableEq, Repr

/-- What `GetEnv` takes from the platform and from library parsers that are not modelled
further. -/
structure ParseCalls where
  /-- `strconv.IntSize`: 32 or 64 -/
  IntSize : Nat
  /-- `strconv.ParseFloat(val, 64)`, `none` for an error -/
  ParseFloat : String → Option Float64
  /-- `time.ParseDuration(val)`, `none` for an error -/
  ParseDuration : String → Option Duration

/-- Go `GetEnv[T](key, defaultValue)` (env.go); `getenv` is `os.Getenv`. -/
def GetEnv (lib : ParseCalls) (getenv : String → String) (key : String)
    (defaultValue : EnvValue) : EnvValue :=
  let val := getenv key
  if val = "" then defaultValue
  else
    match defaultValue with
    | .bool _ =>
      match ParseBool val with
      | none => defaultValue
      | some boolVal => .bool boolVal
    | .int _ =>
      match Atoi lib.IntSize val with
      | none => defaultValue
      | some intVal => .int intVal
    | .int64 _ =>
      match ParseInt val 64 with
      | none => defaultValue
      | some intVal => .int64 intVal
    | .float64 _ =>
      match lib.ParseFloat val with
      | none => defaultValue
      | some floatVal => .float64 floatVal
    | .string _ => .string val
    | .strings _ => .strings ((Split val ',').map TrimSpace)
    | .duration _ =>
      match lib.ParseDuration val with
      | none => defaultValue
      | some duration => .duration duration
    | .other _ _ => defaultValue

/-! ## S3 object reads (`shared/pkg/storage/s3/object.go`, `ReadAt`) -/

/-- Go `Object` (object.go): the name of its bucket and its key; the client and the context are
only passed on. -/
structure Object where
  bucketName : String
  key : String
  deriving DecidableEq, Repr

/-- The `s3.GetObjectInput` that `ReadAt` sends. -/
structure GetObjectInput where
  Bucket : String
  Key : String
  Range : String
  deriving DecidableEq, Repr

/-- The two integers that `ReadAt` formats into the Range header for a buffer of length `len`
and the offset `off`: `off` and `off+int64(len(b))-1`, computed in int64 arithmetic. -/
def rangeBounds (len : Nat) (off : Int) : Int × Int :=
  (off, wrapInt64 (wrapInt64 (off + (len : Int)) - 1))

/-- Go `fmt.Sprintf("bytes=%d-%d", off, off+int64(len(b))-1)`. -/
def rangeHeader (len : Nat) (off : Int) : String :=
  "bytes=" ++ toString (rangeBounds len off).1 ++ "-" ++ toString (rangeBounds len off).2

/-- The error of one `resp.Body.Read`: one for which `errors.Is(readErr, io.EOF)` holds, or any
other. -/
inductive ReadError where
  | EOF
  | other (err : GoError)
  deriving DecidableEq, Repr

/-- Outcomes of the calls into the S3 client made by `ReadAt`: `GetObject` fails or yields a
body, given by what its successive `Read` calls return (bytes read, error or nil). -/
structure S3Calls where
  GetObject : GetObjectInput → Except GoError (List (Nat × Option ReadError))

/-- The read loop of `ReadAt`, with `n` bytes read so far: it ends at the first `Read` that
returns an error; `none` when no `Read` ever does, so that the loop does not end. -/
def readBody : List (Nat × Option ReadError) → Nat → Option (Nat × Option GoError)
  | [], _ => none
  | (nr, none) :: rest, n => readBody rest (n + nr)
  | (nr, some .EOF) :: _, n => some (n + nr, none)
  | (nr, some (.other readErr)) :: _, n =>
    some (n + nr, some (errorfW "failed to read from S3 object: " readErr))

/-- The result of `ReadAt`: the request it sent and the pair `(n, err)` it returned, if it
returned. -/
structure ReadAtResult where
  request : GetObjectInput
  returned : Option (Nat × Option GoError)
  deriving DecidableEq, Repr

/-- Go `(*Object).ReadAt(b, off)` (object.go) for a buffer `b` of length `len`. -/
def Object.ReadAt (s3 : S3Calls) (o : Object) (len : Nat) (off : Int) : ReadAtResult :=
  let input : GetObjectInput :=
    { Bucket := o.bucketName, Key := o.key, Range := rangeHeader len off }
  match s3.GetObject input with
  | .error err =>
    { request := input, returned := some (0, some (errorfW "failed to create S3 reader: " err)) }
  | .ok body => { request := input, returned := readBody body 0 }

/-! ## Reverse proxy root handler (`docker-reverse-proxy/main.go`) -/

/-- What the root handler reads of an `http.Request`. -/
structure Request where
  /-- `req.Method` -/
  Method : String
  /-- `req.URL.String()` -/
  URLString : String
  /-- `req.URL.Path` -/
  URLPath : String
  /-- `req.Header.Get("Authorization")`, the empty string when the header is absent -/
  Authorization : String
  deriving DecidableEq, Repr

/-- What the root handler takes from packages that are not among the sources (`constants`,
`consts`, `utils`) and from the store methods it calls. -/
structure ProxyCalls where
  /-- `constants.CurrentCloudProvider` -/
  CurrentCloudProvider : String
  /-- `constants.GCP` -/
  GCP : String
  /-- `constants.AWS` -/
  AWS : String
  /-- `constants.GCPArtifactUploadPrefix` -/
  GCPArtifactUploadPrefix : String
  /-- `consts.GetAWSUploadPrefix()` -/
  GetAWSUploadPrefix : Except GoError String
  /-- `utils.SubstringMax` -/
  SubstringMax : String → Nat → String
  /-- `store.GetToken(w, req)`: the error, if any -/
  GetToken : Option GoError
  /-- `store.LoginWithToken(w, req)`: the error, if any -/
  LoginWithToken : Option GoError

/-- What the root handler does, in order: log lines and the calls that answer the request. -/
inductive HandlerEffect where
  | logPrintf (msg : String)
  | HealthCheck
  | ServeHTTP
  | WriteHeader (code : Nat)
  | SetDockerUnauthorizedHeaders
  | GetToken
  | LoginWithToken
  | Proxy
  deriving DecidableEq, Repr

/-- Go `http.MethodPatch`. -/
def MethodPatch : String := "PATCH"

/-- Go `http.MethodPost`. -/
def MethodPost : String := "POST"

/-- Go `http.StatusNotFound`. -/
def StatusNotFound : Nat := 404

/-- Go `strings.HasPrefix(s, start)`. -/
def HasPrefix (s start : String) : Bool := start.toList.isPrefixOf s.toList

/-- The root handler from line 64 on: what it does with a request that the health check and
the upload branch did not answer. -/
def rootHandlerFromTokenCheck (cfg : ProxyCalls) (req : Request) : List HandlerEffect :=
  let path := req.URLString
  if req.URLPath = "/v2/token" ∧ req.Method = MethodPost then
    [.WriteHeader StatusNotFound]
  else if req.Authorization = "" then
    [.logPrintf ("Authorization header is missing: " ++ cfg.SubstringMax path 100 ++ "\n"),
     .SetDockerUnauthorizedHeaders]
  else if req.URLPath = "/v2/token" then
    match cfg.GetToken with
    | some err => [.GetToken, .logPrintf ("Error while getting token: " ++ err.Error ++ "\n")]
    | none => [.GetToken]
  else if req.URLPath = "/v2/" then
    match cfg.LoginWithToken with
    | some err =>
      [.LoginWithToken, .logPrintf ("Error while logging in with token: " ++ err.Error ++ "\n")]
    | none => [.LoginWithToken]
  else [.Proxy]

/-- The function that `main` registers for the pattern "/" (main.go, lines 33 to 101). -/
def rootHandler (cfg : ProxyCalls) (req : Request) : List HandlerEffect :=
  let path := req.URLString
  .logPrintf ("Request: " ++ req.Method ++ " " ++ cfg.SubstringMax path 100 ++ "\n") ::
  (if req.URLPath = "/health" then [.HealthCheck]
   else if req.Method = MethodPatch then
     if cfg.CurrentCloudProvider = cfg.GCP ∧ HasPrefix path cfg.GCPArtifactUploadPrefix then
       [.ServeHTTP]
     else if cfg.CurrentCloudProvider = cfg.AWS then
       match cfg.GetAWSUploadPrefix with
       | .error err =>
         [.logPrintf ("Failed to get AWS upload prefix: " ++ err.Error),
          .WriteHeader StatusInternalServerError]
       | .ok uploadPrefix =>
         if HasPrefix path uploadPrefix then [.ServeHTTP]
         else rootHandlerFromTokenCheck cfg req
     else rootHandlerFromTokenCheck cfg req
   else rootHandlerFromTokenCheck cfg req)

/-- The request is a PATCH that the upload branch answers itself (lines 44 to 62): it is
forwarded because its URL starts with the upload prefix of the cloud provider, or, on AWS, the
upload prefix cannot be obtained. -/
def answeredByUploadBranch (cfg : ProxyCalls) (req : Request) : Bool :=
  req.Method == MethodPatch &&
    ((cfg.CurrentCloudProvider == cfg.GCP && HasPrefix req.URLString cfg.GCPArtifactUploadPrefix)
     || (cfg.CurrentCloudProvider == cfg.AWS &&
          match cfg.GetAWSUploadPrefix with
          | .error _ => true
          | .ok uploadPrefix => HasPrefix req.URLString uploadPrefix))

/-! ## Concrete inputs -/

/-- The AWS calls answer with the base64 token `dG9rZW4=` that decodes to `token`. -/
def awsColonless : AWSCalls where
  loadConfig := none
  getAuthorizationToken := .ok [⟨some "dG9rZW4=", some 0, some "https://ecr"⟩]
  decodeString := fun _ => .ok [116, 111, 107, 101, 110]
  secondsUntil := fun _ => 0
  nowRFC3339 := ""
  jsonMarshal := fun _ _ _ => .ok []

/-- The AWS calls answer with the base64 token `QVdTOmE6Yg==` that decodes to `AWS:a:b`. -/
def awsWithColons : AWSCalls where
  loadConfig := none
  getAuthorizationToken := .ok [⟨some "QVdTOmE6Yg==", some 0, some "https://ecr"⟩]
  decodeString := fun _ => .ok [65, 87, 83, 58, 97, 58, 98]
  secondsUntil := fun _ => 0
  nowRFC3339 := ""
  jsonMarshal := fun _ _ _ => .ok []

/-- A key derivation used for concrete runs: the key is `buildId/diffType`. -/
def keys0 : KeyDerivation where
  cacheKey := fun buildId diffType _ => buildId ++ "/" ++ diffType
  storagePath := fun buildId diffType => buildId ++ "/" ++ diffType

/-- An `Init` that fails: the object is not in the bucket. -/
def initFails : DiffObj → Option GoError := fun _ => some (errorsNew "object not found")

/-- An `Init` that succeeds. -/
def initSucceeds : DiffObj → Option GoError := fun _ => none

/-- Library calls for a run of `ToExt4` in which the converter writes three bytes and then
fails because the size limit is exceeded. -/
def osDiskExceeded : ToExt4Calls where
  Create := fun _ => none
  Convert := fun _ _ => ([1, 2, 3], some (errorsNew "disk exceeded maximum size"))
  Close := none

/-- Library calls for a run of `ToExt4` in which the converter fails on a malformed tar stream. -/
def osBadTar : ToExt4Calls where
  Create := fun _ => none
  Convert := fun _ _ => ([], some (errorsNew "unexpected EOF"))
  Close := none

/-- A `Close` that fails for the diff at address 1 and succeeds for every other diff. -/
def closeFailsAt1 : DiffObj → Option GoError :=
  fun d => if d.addr = 1 then some (errorsNew "unlink failed") else none

/-- A store holding two diffs that were added at instant 0. -/
def storeTwoDiffs : DiffStore :=
  DiffStore.Add keys0 0
    (DiffStore.Add keys0 0 NewDiffStore "b1" "rootfs" (some { addr := 1, CacheKey := "b1/rootfs" }))
    "b2" "memfile" (some { addr := 2, CacheKey := "b2/memfile" })

/-- A 64-bit platform on which the float and duration parsers reject every text. -/
def lib64 : ParseCalls where
  IntSize := 64
  ParseFloat := fun _ => none
  ParseDuration := fun _ => none

/-- The process environment used by the tests of `GetEnv`. -/
def testEnviron : Environ :=
  [("TEST_INT_INVALID", "not-an-int"), ("EMPTY_STRING", ""), ("TEST_STRUCT", "some-value"),
   ("TEST_BOOL_TRUE", "true"), ("TEST_BOOL_FALSE", "false"), ("TEST_INT_NEG", "-42"),
   ("TEST_INT64", "9223372036854775807"),
   ("TEST_STRING_SLICE", "item1,item2,item3"),
   ("TEST_STRING_SLICE_SPACES", "item1, item2, item3")]

/-- An S3 client whose `GetObject` yields a body that delivers four bytes and then EOF. -/
def s3FourBytes : S3Calls where
  GetObject := fun _ => .ok [(4, none), (0, some .EOF)]

/-- The proxy running on AWS with the upload prefix `/v2/e2b/custom-envs/blobs/uploads/`. -/
def proxyOnAWS : ProxyCalls where
  CurrentCloudProvider := "aws"
  GCP := "gcp"
  AWS := "aws"
  GCPArtifactUploadPrefix := "/artifacts-uploads/"
  GetAWSUploadPrefix := .ok "/v2/e2b/custom-envs/blobs/uploads/"
  SubstringMax := fun s n => String.mk (s.toList.take n)
  GetToken := none
  LoginWithToken := none

/-! # Theorems -/

/-! ## Splitting at the first separator -/

theorem IndexByte_neg_of_not_mem (c : Byte) :
    ∀ s : GoString, c ∉ s → IndexByte s c < 0 := by
  intro s
  induction s with
  | nil => intro _; simp [IndexByte]
  | cons b rest ih =>
    intro h
    have hb : b ≠ c := fun e => h (by simp [e])
    have hr : c ∉ rest := fun e => h (by simp [e])
    simp [IndexByte, hb, ih hr]

theorem IndexByte_of_mem (c : Byte) :
    ∀ s : GoString, c ∈ s →
      0 ≤ IndexByte s c ∧ (IndexByte s c).toNat = (s.takeWhile (fun b => decide (b ≠ c))).length := by
  intro s
  induction s with
  | nil => intro h; simp at h
  | cons b rest ih =>
    intro h
    by_cases hb : b = c
    · simp [IndexByte, hb]
    · have hr : c ∈ rest := by
        rcases List.mem_cons.mp h with e | e
        · exact absurd e.symm hb
        · exact e
      obtain ⟨h0, h1⟩ := ih hr
      have hn : ¬ IndexByte rest c < 0 := not_lt.mpr h0
      simp only [IndexByte, hb, if_false, hn]
      refine ⟨by omega, ?_⟩
      simp only [ne_eq, hb, not_false_eq_true, decide_True, List.takeWhile_cons_of_pos,
        List.length_cons]
      simp only [ne_eq] at h1
      omega

theorem SplitN_two_nonempty (c : Byte) (s : GoString) (h : 0 < s.length) :
    SplitN s c 2 = genSplitLoop c 0 1 s := by
  have h20 : ¬ ((2 : Int) = 0) := by decide
  have h2n : ¬ ((2 : Int) < 0) := by decide
  have hfuel : ((2 : Int) - 1).toNat = 1 := by decide
  have hlen : ¬ ((2 : Int) > (s.length : Int) + 1) := by omega
  simp only [SplitN, genSplit, h20, h2n, hlen, if_false, hfuel]

theorem SplitN_two_of_not_mem (c : Byte) (s : GoString) (h : c ∉ s) :
    SplitN s c 2 = [s] := by
  have hneg := IndexByte_neg_of_not_mem c s h
  cases s with
  | nil => simp [SplitN, genSplit, genSplitLoop]
  | cons b rest =>
    rw [SplitN_two_nonempty c (b :: rest) (by simp)]
    simp only [genSplitLoop, hneg, if_true]

theorem take_length_takeWhile {α : Type} (p : α → Bool) :
    ∀ l : List α, l.take (l.takeWhile p).length = l.takeWhile p := by
  intro l
  induction l with
  | nil => simp
  | cons a t ih =>
    by_cases ha : p a = true
    · simp [List.takeWhile_cons, ha, ih]
    · simp [List.takeWhile_cons, ha]

theorem drop_length_takeWhile {α : Type} (p : α → Bool) :
    ∀ l : List α, l.drop (l.takeWhile p).length = l.dropWhile p := by
  intro l
  induction l with
  | nil => simp
  | cons a t ih =>
    by_cases ha : p a = true
    · simp [List.takeWhile_cons, List.dropWhile_cons, ha, ih]
    · simp [List.takeWhile_cons, List.dropWhile_cons, ha]

theorem SplitN_two_of_mem (c : Byte) (s : GoString) (h : c ∈ s) :
    SplitN s c 2 =
      [s.takeWhile (fun b => decide (b ≠ c)), (s.dropWhile (fun b => decide (b ≠ c))).tail] := by
  obtain ⟨h0, h1⟩ := IndexByte_of_mem c s h
  have hn : ¬ IndexByte s c < 0 := not_lt.mpr h0
  have hd : s.drop ((s.takeWhile (fun b => decide (b ≠ c))).length + 1)
      = (s.dropWhile (fun b => decide (b ≠ c))).tail := by
    rw [← List.drop_drop, drop_length_takeWhile]
    simp
  rw [SplitN_two_nonempty c s (List.length_pos_of_mem h)]
  simp only [genSplitLoop, hn, if_false, Nat.add_zero, h1, take_length_takeWhile, hd]

theorem takeWhile_ne_append (c : Byte) (p : GoString) :
    ∀ u : GoString, c ∉ u →
      (u ++ c :: p).takeWhile (fun b => decide (b ≠ c)) = u ∧
      (u ++ c :: p).dropWhile (fun b => decide (b ≠ c)) = c :: p := by
  intro u
  induction u with
  | nil => intro _; simp [List.takeWhile_cons, List.dropWhile_cons]
  | cons a t ih =>
    intro h
    have ha : a ≠ c := fun e => h (by simp [e])
    have ht : c ∉ t := fun e => h (by simp [e])
    simpa [List.takeWhile_cons, List.dropWhile_cons, ha] using ih ht

theorem not_mem_takeWhile_ne (c : Byte) (s : GoString) :
    c ∉ s.takeWhile (fun b => decide (b ≠ c)) := by
  intro h
  have := List.mem_takeWhile_imp h
  simp at this

theorem takeWhile_colon_tail_dropWhile (c : Byte) (s : GoString) (h : c ∈ s) :
    s.takeWhile (fun b => decide (b ≠ c)) ++ c :: (s.dropWhile (fun b => decide (b ≠ c))).tail = s := by
  induction s with
  | nil => simp at h
  | cons a t ih =>
    by_cases ha : a = c
    · simp [List.takeWhile_cons, List.dropWhile_cons, ha]
    · have ht : c ∈ t := by
        rcases List.mem_cons.mp h with e | e
        · exact absurd e.symm ha
        · exact e
      simpa [List.takeWhile_cons, List.dropWhile_cons, ha] using ih ht

/-! ## Claims about ECR authentication -/

/-- C1: when the base64-decoded authorization token contains no `':'`, `getECRAuth` returns no
credentials and the error "invalid auth token format", and `HandleAWSECRToken` returns the empty
token and the error "invalid ECR token format", writing only the fixed 500 message to the
response; nothing returned or written is derived from the decoded token. -/
theorem C1_token_without_colon_rejected (aws : AWSCalls) (authData : AuthorizationData)
    (rest : List AuthorizationData) (token : String) (decodedToken : GoString)
    (hcfg : aws.loadConfig = none)
    (hget : aws.getAuthorizationToken = .ok (authData :: rest))
    (htok : authData.AuthorizationToken = some token)
    (hdec : aws.decodeString token = .ok decodedToken)
    (hcolon : colon ∉ decodedToken) :
    getECRAuth aws = .returns (none, some (errorsNew "invalid auth token format")) ∧
    (authData.ExpiresAt ≠ none → authData.ProxyEndpoint ≠ none →
      HandleAWSECRToken aws =
        .returns (([], some (errorsNew "invalid ECR token format")),
          [.logPrintf "Invalid AWS ECR auth token format",
           .httpError "Invalid ECR authorization token format" 500])) := by
  have hsplit := SplitN_two_of_not_mem colon decodedToken hcolon
  constructor
  · simp [getECRAuth, hcfg, hget, htok, hdec, hsplit]
  · intro he hp
    obtain ⟨e, he⟩ := Option.ne_none_iff_exists'.mp he
    obtain ⟨q, hp⟩ := Option.ne_none_iff_exists'.mp hp
    simp [HandleAWSECRToken, GetAWSECRAuthToken, hcfg, hget, htok, he, hp, hdec, hsplit,
      StatusInternalServerError]

/-- C2: when the base64-decoded authorization token contains a `':'`, `getECRAuth` succeeds;
Username is the text before the first `':'` (it contains no `':'`), Password is everything
after that first `':'`, Username ++ ":" ++ Password is the decoded token, and this is the only
such split with a colon-free left part. -/
theorem C2_token_split_at_first_colon (aws : AWSCalls) (authData : AuthorizationData)
    (rest : List AuthorizationData) (token : String) (decodedToken : GoString)
    (hcfg : aws.loadConfig = none)
    (hget : aws.getAuthorizationToken = .ok (authData :: rest))
    (htok : authData.AuthorizationToken = some token)
    (hdec : aws.decodeString token = .ok decodedToken)
    (hcolon : colon ∈ decodedToken) :
    ∃ basic : Basic,
      getECRAuth aws = .returns (some basic, none) ∧
      basic.Username = decodedToken.takeWhile (fun b => decide (b ≠ colon)) ∧
      basic.Password = (decodedToken.dropWhile (fun b => decide (b ≠ colon))).tail ∧
      colon ∉ basic.Username ∧
      basic.Username ++ colon :: basic.Password = decodedToken ∧
      (∀ u p : GoString, u ++ colon :: p = decodedToken → colon ∉ u →
        u = basic.Username ∧ p = basic.Password) := by
  have hsplit := SplitN_two_of_mem colon decodedToken hcolon
  refine ⟨⟨decodedToken.takeWhile (fun b => decide (b ≠ colon)),
    (decodedToken.dropWhile (fun b => decide (b ≠ colon))).tail⟩, ?_, rfl, rfl, ?_, ?_, ?_⟩
  · simp [getECRAuth, hcfg, hget, htok, hdec, hsplit]
  · exact not_mem_takeWhile_ne colon decodedToken
  · exact takeWhile_colon_tail_dropWhile colon decodedToken hcolon
  · intro u p hup hu
    obtain ⟨h1, h2⟩ := takeWhile_ne_append colon p u hu
    subst hup
    simp only [h1, h2, List.tail_cons, and_self]

theorem C1_token_without_colon_rejected_witness :
    getECRAuth awsColonless = .returns (none, some (errorsNew "invalid auth token format")) ∧
    HandleAWSECRToken awsColonless =
        .returns (([], some (errorsNew "invalid ECR token format")),
          [.logPrintf "Invalid AWS ECR auth token format",
           .httpError "Invalid ECR authorization token format" 500]) :=
  have h := C1_token_without_colon_rejected awsColonless ⟨some "dG9rZW4=", some 0, some "https://ecr"⟩ []
    "dG9rZW4=" [116, 111, 107, 101, 110] rfl rfl rfl rfl (by decide)
  ⟨h.1, h.2 (by simp) (by simp)⟩

theorem C2_token_split_at_first_colon_witness :
    ∃ basic : Basic,
      getECRAuth awsWithColons = .returns (some basic, none) ∧
      basic.Username = [65, 87, 83] ∧ basic.Password = [97, 58, 98] := by
  obtain ⟨basic, h1, h2, h3, _⟩ :=
    C2_token_split_at_first_colon awsWithColons ⟨some "QVdTOmE6Yg==", some 0, some "https://ecr"⟩ []
      "QVdTOmE6Yg==" [65, 87, 83, 58, 97, 58, 98] rfl rfl rfl rfl (by decide)
  exact ⟨basic, h1, by rw [h2]; decide, by rw [h3]; decide⟩

/-! ## The cache as a finite map -/

theorem Cache.key_of_find {c : Cache} {key : String} {item : Item}
    (h : c.find key = some item) : item.key = key := by
  have := List.find?_some h
  simpa using this

theorem Cache.find_put_self (c : Cache) (item : Item) :
    (c.put item).find item.key = some item := by
  simp [Cache.find, Cache.put]

theorem find_filter_of_imp {α : Type} (p q : α → Bool) (hpq : ∀ x, p x = true → q x = true) :
    ∀ l : List α, (l.filter q).find? p = l.find? p := by
  intro l
  induction l with
  | nil => rfl
  | cons a t ih =>
    by_cases hq : q a = true
    · simp only [List.filter_cons, hq, if_true, List.find?_cons, ih]
    · have hp : p a = false := by
        cases hpa : p a with
        | false => rfl
        | true => exact absurd (hpq a hpa) hq
      have hq' : q a = false := by simpa using hq
      simp [List.filter_cons, hq', List.find?_cons, hp, ih]

theorem Cache.find_put_of_ne (c : Cache) (item : Item) (k : String) (hk : k ≠ item.key) :
    (c.put item).find k = c.find k := by
  have hk' : (item.key == k) = false := by
    simp only [beq_eq_false_iff_ne, ne_eq]
    exact fun e => hk e.symm
  simp only [Cache.find, Cache.put, List.find?_cons, hk']
  apply find_filter_of_imp
  intro x hx
  have hxk : x.key = k := by simpa using hx
  simp only [bne_iff_ne, ne_eq, hxk]
  exact hk

theorem Cache.get_of_live_none (c : Cache) (now : Time) (key : String) (touch : Bool)
    (h : c.live now key = none) : c.get now key touch = (none, c) := by
  unfold Cache.live at h
  unfold Cache.get
  cases hf : c.find key with
  | none => rfl
  | some item =>
    rw [hf] at h
    by_cases he : item.isExpired now = true
    · simp [he]
    · simp [he] at h

theorem Cache.get_of_live_some (c : Cache) (now : Time) (key : String) (touch : Bool)
    (item : Item) (h : c.live now key = some item) :
    ∃ item₁ : Item, (c.get now key touch).1 = some item₁ ∧ item₁.value = item.value ∧
      item₁.key = key ∧ (c.get now key touch).2 = c.put item₁ := by
  unfold Cache.live at h
  unfold Cache.get
  cases hf : c.find key with
  | none => rw [hf] at h; simp at h
  | some it =>
    rw [hf] at h
    have hkey := Cache.key_of_find hf
    by_cases he : it.isExpired now = true
    · simp [he] at h
    · simp only [he] at h
      have hit : it = item := by simpa using h
      subst hit
      simp only [he]
      by_cases ht : (touch && decide (it.ttl > 0)) = true
      · simp only [ht, if_true]
        exact ⟨_, rfl, rfl, hkey, rfl⟩
      · simp only [ht]
        exact ⟨_, rfl, rfl, hkey, rfl⟩

theorem Cache.find_Set_self (c : Cache) (now : Time) (key : String) (value : Diff)
    (ttl : Duration) (httl : ttl ≠ DefaultTTL) :
    (c.Set now key value ttl).1 = newItem now key value ttl ∧
    (c.Set now key value ttl).2.find key = some (newItem now key value ttl) := by
  have hk : (newItem now key value ttl).key = key := rfl
  unfold Cache.Set
  simp only [httl, if_false]
  cases hg : c.get now key false with
  | mk found c₁ =>
    cases found with
    | none =>
      refine ⟨rfl, ?_⟩
      have := Cache.find_put_self c (newItem now key value ttl)
      rwa [hk] at this
    | some it =>
      refine ⟨rfl, ?_⟩
      have := Cache.find_put_self c₁ (newItem now key value ttl)
      rwa [hk] at this

theorem Cache.find_Set_of_ne (c : Cache) (now : Time) (key : String) (value : Diff)
    (ttl : Duration) (k : String) (hk : k ≠ key) :
    (c.Set now key value ttl).2.find k = c.find k := by
  unfold Cache.Set
  cases hl : c.live now key with
  | none =>
    rw [Cache.get_of_live_none c now key false hl]
    exact Cache.find_put_of_ne c _ k hk
  | some item =>
    obtain ⟨item₁, h1, _, h3, h4⟩ := Cache.get_of_live_some c now key false item hl
    cases hg : c.get now key false with
    | mk found c₁ =>
      rw [hg] at h1 h4
      simp only at h1 h4
      subst h1
      simp only
      rw [Cache.find_put_of_ne c₁ _ k hk, h4]
      exact Cache.find_put_of_ne c item₁ k (by rw [h3]; exact hk)

theorem buildExpiration_pos : (0 : Int) < buildExpiration := by decide

theorem buildExpiration_ne_default : buildExpiration ≠ DefaultTTL := by decide

theorem newItem_live (now now₁ : Time) (key : String) (value : Diff)
    (h : now₁ ≤ now + buildExpiration) :
    (newItem now key value buildExpiration).isExpired now₁ = false := by
  have h1 : ¬ buildExpiration ≤ 0 := not_le.mpr buildExpiration_pos
  simp only [Item.isExpired, newItem, h1, if_false, decide_eq_false_iff_not]
  exact not_lt.mpr h

/-- On a miss `DiffStore.Get` behaves as follows: the fresh diff is stored under its key for `buildExpiration`
and `Init` is called on it. -/
theorem DiffStore.Get_miss (kd : KeyDerivation) (Init : DiffObj → Option GoError) (now : Time)
    (addr : Nat) (s : DiffStore) (buildId : String) (diffType : DiffType) (blockSize : Int)
    (hmiss : s.cache.live now (kd.cacheKey buildId diffType blockSize) = none) :
    DiffStore.Get kd Init now addr s buildId diffType blockSize =
      match Init (newStorageDiff kd addr buildId diffType blockSize) with
      | some err =>
        { value := none, err := some (errorfW "failed to init source: " err),
          store := { cache := s.cache.put (newItem now (kd.cacheKey buildId diffType blockSize)
            (some (newStorageDiff kd addr buildId diffType blockSize)) buildExpiration) },
          calls := [.Init (newStorageDiff kd addr buildId diffType blockSize)] }
      | none =>
        { value := some (newStorageDiff kd addr buildId diffType blockSize), err := none,
          store := { cache := s.cache.put (newItem now (kd.cacheKey buildId diffType blockSize)
            (some (newStorageDiff kd addr buildId diffType blockSize)) buildExpiration) },
          calls := [.Init (newStorageDiff kd addr buildId diffType blockSize)] } := by
  have hg := Cache.get_of_live_none s.cache now (kd.cacheKey buildId diffType blockSize)
  have hne := buildExpiration_ne_default
  simp only [DiffStore.Get, Cache.GetOrSet, newStorageDiff, hg _ hmiss, Cache.Set, hne, if_false,
    newItem]
  cases Init { addr := addr, CacheKey := kd.cacheKey buildId diffType blockSize } <;> simp

/-- On a hit `DiffStore.Get` behaves as follows: the stored value is returned without error and without `Init`. -/
theorem DiffStore.Get_hit (kd : KeyDerivation) (Init : DiffObj → Option GoError) (now : Time)
    (addr : Nat) (s : DiffStore) (buildId : String) (diffType : DiffType) (blockSize : Int)
    (item : Item) (d : DiffObj)
    (hlive : s.cache.live now (kd.cacheKey buildId diffType blockSize) = some item)
    (hval : item.value = some d) :
    (DiffStore.Get kd Init now addr s buildId diffType blockSize).value = some d ∧
    (DiffStore.Get kd Init now addr s buildId diffType blockSize).err = none ∧
    (DiffStore.Get kd Init now addr s buildId diffType blockSize).calls = [] := by
  obtain ⟨item₁, h1, h2, _, _⟩ := Cache.get_of_live_some s.cache now
    (kd.cacheKey buildId diffType blockSize) (!s.cache.disableTouchOnHit) item hlive
  cases hg : s.cache.get now (kd.cacheKey buildId diffType blockSize) (!s.cache.disableTouchOnHit) with
  | mk found c₁ =>
    rw [hg] at h1
    simp only at h1
    subst h1
    have hv : item₁.value = some d := by rw [h2, hval]
    simp [DiffStore.Get, Cache.GetOrSet, newStorageDiff, hg, hv]

theorem newItem_buildExpiration (now : Time) (key : String) (value : Diff) :
    newItem now key value buildExpiration
      = { key := key, value := value, ttl := buildExpiration, expiresAt := now + buildExpiration } := by
  have h1 : ¬ buildExpiration ≤ 0 := not_le.mpr buildExpiration_pos
  simp only [newItem, h1, if_false]

/-- After a miss, whatever `Init` returns, the store holds the fresh diff under its key and
exactly one `Init` call was made. -/
theorem DiffStore.Get_miss_store (kd : KeyDerivation) (Init : DiffObj → Option GoError)
    (now : Time) (addr : Nat) (s : DiffStore) (buildId : String) (diffType : DiffType)
    (blockSize : Int)
    (hmiss : s.cache.live now (kd.cacheKey buildId diffType blockSize) = none) :
    (DiffStore.Get kd Init now addr s buildId diffType blockSize).store
      = { cache := s.cache.put (newItem now (kd.cacheKey buildId diffType blockSize)
            (some (newStorageDiff kd addr buildId diffType blockSize)) buildExpiration) } ∧
    (DiffStore.Get kd Init now addr s buildId diffType blockSize).calls
      = [.Init (newStorageDiff kd addr buildId diffType blockSize)] := by
  rw [DiffStore.Get_miss kd Init now addr s buildId diffType blockSize hmiss]
  cases Init (newStorageDiff kd addr buildId diffType blockSize) <;> exact ⟨rfl, rfl⟩

/-- A `Get` on a store that holds an unexpired entry put under the key of its arguments is a
hit: it returns the stored diff, no error, and calls no `Init`. -/
theorem DiffStore.Get_hit_after_put (kd : KeyDerivation) (Init₁ : DiffObj → Option GoError)
    (now now₁ : Time) (addr₁ : Nat) (c : Cache) (buildId : String) (diffType : DiffType)
    (blockSize : Int) (d : DiffObj) (hle : now₁ ≤ now + buildExpiration) :
    (DiffStore.Get kd Init₁ now₁ addr₁
        { cache := c.put (newItem now (kd.cacheKey buildId diffType blockSize) (some d)
            buildExpiration) } buildId diffType blockSize).value = some d ∧
    (DiffStore.Get kd Init₁ now₁ addr₁
        { cache := c.put (newItem now (kd.cacheKey buildId diffType blockSize) (some d)
            buildExpiration) } buildId diffType blockSize).err = none ∧
    (DiffStore.Get kd Init₁ now₁ addr₁
        { cache := c.put (newItem now (kd.cacheKey buildId diffType blockSize) (some d)
            buildExpiration) } buildId diffType blockSize).calls = [] := by
  apply DiffStore.Get_hit kd Init₁ now₁ addr₁ _ buildId diffType blockSize
    (newItem now (kd.cacheKey buildId diffType blockSize) (some d) buildExpiration)
  · have hf : Cache.find (c.put (newItem now (kd.cacheKey buildId diffType blockSize)
        (some d) buildExpiration)) (kd.cacheKey buildId diffType blockSize) = _ :=
      Cache.find_put_self c _
    simp only [Cache.live, hf, newItem_live now now₁ _ _ hle]
    rfl
  · rfl

/-! ## Claims about the diff cache -/

/-- C3, as stated, fails: starting from the empty store, `Get("b1", "rootfs", 4096)` misses and
its `Init` fails; `Get` returns an error, but the cache still holds the diff allocated at
address 7 under the key, and the following `Get` with the same arguments is a hit that runs no
`Init` and returns that never-initialised diff with a nil error. -/
theorem C3_counterexample :
    NewDiffStore.cache.live 0 (keys0.cacheKey "b1" "rootfs" 4096) = none ∧
    initFails (newStorageDiff keys0 7 "b1" "rootfs" 4096) ≠ none ∧
    (DiffStore.Get keys0 initFails 0 7 NewDiffStore "b1" "rootfs" 4096).err ≠ none ∧
    (DiffStore.Get keys0 initFails 0 7 NewDiffStore "b1" "rootfs" 4096).store.cache.find
        (keys0.cacheKey "b1" "rootfs" 4096) ≠ none ∧
    DiffStore.Get keys0 initFails 1 8
        (DiffStore.Get keys0 initFails 0 7 NewDiffStore "b1" "rootfs" 4096).store
        "b1" "rootfs" 4096 =
      { value := some (newStorageDiff keys0 7 "b1" "rootfs" 4096), err := none,
        store := { cache := { ttl := buildExpiration, disableTouchOnHit := false,
                              items := [{ key := "b1/rootfs",
                                          value := some (newStorageDiff keys0 7 "b1" "rootfs" 4096),
                                          ttl := buildExpiration,
                                          expiresAt := 1 + buildExpiration }] } },
        calls := [] } := by
  decide

/-- C3, amended: when `DiffStore.Get` misses and the new diff's `Init` fails with `err`, `Get`
returns no diff and the error "failed to init source: " wrapping `err`, after exactly one `Init`
call; the entry inserted for the new diff stays in the cache under its key with the 25-hour
time-to-live, and every following `Get` with the same arguments up to its expiry is a hit: it
calls no `Init` and returns the stored diff with a nil error. -/
theorem C3_failed_init_keeps_entry (kd : KeyDerivation) (Init : DiffObj → Option GoError)
    (now : Time) (addr : Nat) (s : DiffStore) (buildId : String) (diffType : DiffType)
    (blockSize : Int) (err : GoError)
    (hmiss : s.cache.live now (kd.cacheKey buildId diffType blockSize) = none)
    (hinit : Init (newStorageDiff kd addr buildId diffType blockSize) = some err) :
    (DiffStore.Get kd Init now addr s buildId diffType blockSize).value = none ∧
    (DiffStore.Get kd Init now addr s buildId diffType blockSize).err
      = some (errorfW "failed to init source: " err) ∧
    (DiffStore.Get kd Init now addr s buildId diffType blockSize).calls
      = [.Init (newStorageDiff kd addr buildId diffType blockSize)] ∧
    (DiffStore.Get kd Init now addr s buildId diffType blockSize).store.cache.find
        (kd.cacheKey buildId diffType blockSize)
      = some { key := kd.cacheKey buildId diffType blockSize,
               value := some (newStorageDiff kd addr buildId diffType blockSize),
               ttl := buildExpiration, expiresAt := now + buildExpiration } ∧
    ∀ (Init₁ : DiffObj → Option GoError) (now₁ : Time) (addr₁ : Nat),
      now₁ ≤ now + buildExpiration →
      (DiffStore.Get kd Init₁ now₁ addr₁
          (DiffStore.Get kd Init now addr s buildId diffType blockSize).store
          buildId diffType blockSize).value
        = some (newStorageDiff kd addr buildId diffType blockSize) ∧
      (DiffStore.Get kd Init₁ now₁ addr₁
          (DiffStore.Get kd Init now addr s buildId diffType blockSize).store
          buildId diffType blockSize).err = none ∧
      (DiffStore.Get kd Init₁ now₁ addr₁
          (DiffStore.Get kd Init now addr s buildId diffType blockSize).store
          buildId diffType blockSize).calls = [] := by
  obtain ⟨hstore, hcalls⟩ :=
    DiffStore.Get_miss_store kd Init now addr s buildId diffType blockSize hmiss
  refine ⟨?_, ?_, hcalls, ?_, ?_⟩
  · rw [DiffStore.Get_miss kd Init now addr s buildId diffType blockSize hmiss, hinit]
  · rw [DiffStore.Get_miss kd Init now addr s buildId diffType blockSize hmiss, hinit]
  · rw [hstore, ← newItem_buildExpiration]
    exact Cache.find_put_self s.cache _
  · intro Init₁ now₁ addr₁ hle
    rw [hstore]
    exact DiffStore.Get_hit_after_put kd Init₁ now now₁ addr₁ s.cache buildId diffType blockSize
      _ hle

theorem C3_failed_init_keeps_entry_witness :
    (DiffStore.Get keys0 initFails 0 7 NewDiffStore "b1" "rootfs" 4096).value = none ∧
    (DiffStore.Get keys0 initFails 0 7 NewDiffStore "b1" "rootfs" 4096).store.cache.find "b1/rootfs"
      = some { key := "b1/rootfs", value := some { addr := 7, CacheKey := "b1/rootfs" },
               ttl := buildExpiration, expiresAt := 0 + buildExpiration } :=
  have h := C3_failed_init_keeps_entry keys0 initFails 0 7 NewDiffStore "b1" "rootfs" 4096
    (errorsNew "object not found") (by decide) (by decide)
  ⟨h.1, h.2.2.2.1⟩

/-- C4, as stated, fails: from the empty store `Get("b1", "snapshot", 4096)` misses, stores
the diff allocated at address 7 under its key and calls `Init` on it once, but that `Init`
fails, and `Get` does not return that diff: it returns nil and the error "failed to init
source: object not found". -/
theorem C4_counterexample :
    NewDiffStore.cache.live 0 (keys0.cacheKey "b1" "snapshot" 4096) = none ∧
    (DiffStore.Get keys0 initFails 0 7 NewDiffStore "b1" "snapshot" 4096).calls
      = [.Init (newStorageDiff keys0 7 "b1" "snapshot" 4096)] ∧
    (DiffStore.Get keys0 initFails 0 7 NewDiffStore "b1" "snapshot" 4096).store.cache.find
        (keys0.cacheKey "b1" "snapshot" 4096)
      = some { key := "b1/snapshot", value := some (newStorageDiff keys0 7 "b1" "snapshot" 4096),
               ttl := buildExpiration, expiresAt := 0 + buildExpiration } ∧
    (DiffStore.Get keys0 initFails 0 7 NewDiffStore "b1" "snapshot" 4096).value = none ∧
    (DiffStore.Get keys0 initFails 0 7 NewDiffStore "b1" "snapshot" 4096).value
      ≠ some (newStorageDiff keys0 7 "b1" "snapshot" 4096) ∧
    (DiffStore.Get keys0 initFails 0 7 NewDiffStore "b1" "snapshot" 4096).err
      = some (errorfW "failed to init source: " (errorsNew "object not found")) := by
  decide

/-- C4, amended: in sequential use, a `DiffStore.Get` that misses stores the newly constructed
diff under its cache key and calls `Init` on it exactly once; when that `Init` succeeds it
returns that diff with a nil error, and when that `Init` fails it returns no diff and the error
"failed to init source: " wrapping the `Init` error. A second `Get` with the same arguments
while the entry is unexpired returns the very same stored diff (the object allocated by the
first call, not the one the second call constructs), with a nil error and without any `Init`. -/
theorem C4_get_miss_then_hit (kd : KeyDerivation) (Init : DiffObj → Option GoError)
    (now : Time) (addr : Nat) (s : DiffStore) (buildId : String) (diffType : DiffType)
    (blockSize : Int)
    (hmiss : s.cache.live now (kd.cacheKey buildId diffType blockSize) = none) :
    (DiffStore.Get kd Init now addr s buildId diffType blockSize).store.cache.find
        (kd.cacheKey buildId diffType blockSize)
      = some { key := kd.cacheKey buildId diffType blockSize,
               value := some (newStorageDiff kd addr buildId diffType blockSize),
               ttl := buildExpiration, expiresAt := now + buildExpiration } ∧
    (DiffStore.Get kd Init now addr s buildId diffType blockSize).calls
      = [.Init (newStorageDiff kd addr buildId diffType blockSize)] ∧
    (Init (newStorageDiff kd addr buildId diffType blockSize) = none →
      (DiffStore.Get kd Init now addr s buildId diffType blockSize).value
        = some (newStorageDiff kd addr buildId diffType blockSize) ∧
      (DiffStore.Get kd Init now addr s buildId diffType blockSize).err = none) ∧
    (∀ err : GoError, Init (newStorageDiff kd addr buildId diffType blockSize) = some err →
      (DiffStore.Get kd Init now addr s buildId diffType blockSize).value = none ∧
      (DiffStore.Get kd Init now addr s buildId diffType blockSize).err
        = some (errorfW "failed to init source: " err)) ∧
    ∀ (Init₁ : DiffObj → Option GoError) (now₁ : Time) (addr₁ : Nat),
      now₁ ≤ now + buildExpiration →
      (DiffStore.Get kd Init₁ now₁ addr₁
          (DiffStore.Get kd Init now addr s buildId diffType blockSize).store
          buildId diffType blockSize).value
        = some (newStorageDiff kd addr buildId diffType blockSize) ∧
      (DiffStore.Get kd Init₁ now₁ addr₁
          (DiffStore.Get kd Init now addr s buildId diffType blockSize).store
          buildId diffType blockSize).err = none ∧
      (DiffStore.Get kd Init₁ now₁ addr₁
          (DiffStore.Get kd Init now addr s buildId diffType blockSize).store
          buildId diffType blockSize).calls = [] := by
  obtain ⟨hstore, hcalls⟩ :=
    DiffStore.Get_miss_store kd Init now addr s buildId diffType blockSize hmiss
  refine ⟨?_, hcalls, ?_, ?_, ?_⟩
  · rw [hstore, ← newItem_buildExpiration]
    exact Cache.find_put_self s.cache _
  · intro hok
    rw [DiffStore.Get_miss kd Init now addr s buildId diffType blockSize hmiss, hok]
    exact ⟨rfl, rfl⟩
  · intro err herr
    rw [DiffStore.Get_miss kd Init now addr s buildId diffType blockSize hmiss, herr]
    exact ⟨rfl, rfl⟩
  · intro Init₁ now₁ addr₁ hle
    rw [hstore]
    exact DiffStore.Get_hit_after_put kd Init₁ now now₁ addr₁ s.cache buildId diffType blockSize
      _ hle

theorem C4_get_miss_then_hit_witness :
    (DiffStore.Get keys0 initSucceeds 0 7 NewDiffStore "b1" "snapshot" 4096).value
      = some { addr := 7, CacheKey := "b1/snapshot" } ∧
    (DiffStore.Get keys0 initSucceeds 0 7 NewDiffStore "b1" "snapshot" 4096).calls
      = [.Init { addr := 7, CacheKey := "b1/snapshot" }] ∧
    (DiffStore.Get keys0 initSucceeds 5 8
      (DiffStore.Get keys0 initSucceeds 0 7 NewDiffStore "b1" "snapshot" 4096).store
      "b1" "snapshot" 4096).value = some { addr := 7, CacheKey := "b1/snapshot" } ∧
    (DiffStore.Get keys0 initSucceeds 5 8
      (DiffStore.Get keys0 initSucceeds 0 7 NewDiffStore "b1" "snapshot" 4096).store
      "b1" "snapshot" 4096).calls = [] :=
  have h := C4_get_miss_then_hit keys0 initSucceeds 0 7 NewDiffStore "b1" "snapshot" 4096
    (by decide)
  ⟨(h.2.2.1 rfl).1, h.2.1, (h.2.2.2.2 initSucceeds 5 8 (by decide)).1,
    (h.2.2.2.2 initSucceeds 5 8 (by decide)).2.2⟩

/-- C10: `DiffStore.Add(buildId, t, d)` leaves the cache mapping the key
`storagePath(buildId, t)` to `d`, whatever was stored there before, with a time-to-live of
exactly 25 hours (90000 seconds) counted from the call, and leaves the entry under every other
key unchanged; an entry inserted by a missing `Get` gets the same 25-hour time-to-live. -/
theorem C10_add_stores_for_25_hours (kd : KeyDerivation) (now : Time) (s : DiffStore)
    (buildId : String) (t : DiffType) (d : Diff) :
    (DiffStore.Add kd now s buildId t d).cache.find (kd.storagePath buildId t)
      = some { key := kd.storagePath buildId t, value := d,
               ttl := buildExpiration, expiresAt := now + buildExpiration } ∧
    buildExpiration = 25 * Hour ∧ buildExpiration = 90000 * Second ∧
    (∀ k : String, k ≠ kd.storagePath buildId t →
      (DiffStore.Add kd now s buildId t d).cache.find k = s.cache.find k) ∧
    (∀ (Init : DiffObj → Option GoError) (addr : Nat) (blockSize : Int),
      s.cache.live now (kd.cacheKey buildId t blockSize) = none →
      (DiffStore.Get kd Init now addr s buildId t blockSize).store.cache.find
          (kd.cacheKey buildId t blockSize)
        = some { key := kd.cacheKey buildId t blockSize,
                 value := some (newStorageDiff kd addr buildId t blockSize),
                 ttl := buildExpiration, expiresAt := now + buildExpiration }) := by
  refine ⟨?_, by decide, by decide, ?_, ?_⟩
  · rw [← newItem_buildExpiration]
    exact (Cache.find_Set_self s.cache now (kd.storagePath buildId t) d buildExpiration
      buildExpiration_ne_default).2
  · intro k hk
    exact Cache.find_Set_of_ne s.cache now (kd.storagePath buildId t) d buildExpiration k hk
  · intro Init addr blockSize hmiss
    rw [(DiffStore.Get_miss_store kd Init now addr s buildId t blockSize hmiss).1,
      ← newItem_buildExpiration]
    exact Cache.find_put_self s.cache _

theorem C10_add_stores_for_25_hours_witness :
    (DiffStore.Add keys0 0 (DiffStore.Add keys0 0 NewDiffStore "b2" "memfile" none)
        "b1" "rootfs" (some { addr := 3, CacheKey := "local" })).cache.find "b1/rootfs"
      = some { key := "b1/rootfs", value := some { addr := 3, CacheKey := "local" },
               ttl := buildExpiration, expiresAt := 0 + buildExpiration } ∧
    (DiffStore.Add keys0 0 (DiffStore.Add keys0 0 NewDiffStore "b2" "memfile" none)
        "b1" "rootfs" (some { addr := 3, CacheKey := "local" })).cache.find "b2/memfile"
      = (DiffStore.Add keys0 0 NewDiffStore "b2" "memfile" none).cache.find "b2/memfile" :=
  have h := C10_add_stores_for_25_hours keys0 0
    (DiffStore.Add keys0 0 NewDiffStore "b2" "memfile" none) "b1" "rootfs"
    (some { addr := 3, CacheKey := "local" })
  ⟨h.1, h.2.2.2.1 "b2/memfile" (by decide)⟩

/-! ## Claims about `ToExt4` -/

theorem FileSystem.lookup_writeFile_self (fs : FileSystem) (path : String) (content : GoString) :
    (fs.writeFile path content).lookup path = some content := by
  simp [FileSystem.lookup, FileSystem.writeFile]

theorem FileSystem.lookup_writeFile_of_ne (fs : FileSystem) (path : String) (content : GoString)
    (p : String) (hp : p ≠ path) :
    (fs.writeFile path content).lookup p = fs.lookup p := by
  have hp' : (path == p) = false := by
    simp only [beq_eq_false_iff_ne, ne_eq]
    exact fun e => hp e.symm
  simp only [FileSystem.lookup, FileSystem.writeFile, List.find?_cons, hp']
  congr 1
  apply find_filter_of_imp
  intro x hx
  have hxk : x.1 = p := by simpa using hx
  simp only [bne_iff_ne, ne_eq, hxk]
  exact hp

theorem shiftRight_ToMBShift_eq_floor (sizeLimit : Int) :
    sizeLimit >>> ToMBShift = ⌊(sizeLimit : ℚ) / 1048576⌋ := by
  unfold ToMBShift
  rw [Int.shiftRight_eq_div_pow]
  have : ((1048576 : ℕ) : ℚ) = 1048576 := by norm_num
  rw [← this, Rat.floor_intCast_div_natCast]

theorem size_message_ne_generic_message (x y : String) :
    "build failed - exceeded maximum size " ++ x ++ " MB" ≠ "error converting tar to ext4: " ++ y := by
  intro h
  have h2 := congrArg String.data h
  simp only [String.data_append] at h2
  have h3 := congrArg List.head? h2
  revert h3
  simp

/-- C5, as stated, fails: the converter writes three bytes to the new file and then fails with
"disk exceeded maximum size"; `ToExt4` returns the size-exceeded error and the file it created
is still at `rootfsPath`, holding those three bytes. -/
theorem C5_counterexample :
    FileSystem.lookup [] "/fc-vm/rootfs.ext4" = none ∧
    (ToExt4 osDiskExceeded [] ⟨[]⟩ "/fc-vm/rootfs.ext4" 5368709120).err
      = some (errorsNew "build failed - exceeded maximum size 5120 MB") ∧
    (ToExt4 osDiskExceeded [] ⟨[]⟩ "/fc-vm/rootfs.ext4" 5368709120).fs.lookup "/fc-vm/rootfs.ext4"
      = some [1, 2, 3] ∧
    (ToExt4 osDiskExceeded [] ⟨[]⟩ "/fc-vm/rootfs.ext4" 5368709120).effects
      = [.create "/fc-vm/rootfs.ext4", .convert 5368709120, .closeFile "/fc-vm/rootfs.ext4",
         .reportEvent "closed rootfs file", .closeReader] := by
  decide

/-- C5, amended: when the tar-to-ext4 conversion in `ToExt4` fails because the limit is
exceeded, `ToExt4` returns the size-exceeded error; on return the file it created at
`rootfsPath` has been closed but not removed: it is still there and holds what the converter
wrote before failing, and no other file has changed. -/
theorem C5_size_exceeded_leaves_file (os : ToExt4Calls) (fs : FileSystem) (img : Image)
    (rootfsPath : String) (sizeLimit : Int) (err : GoError)
    (hcreate : os.Create rootfsPath = none)
    (hconv : (os.Convert img.tar sizeLimit).2 = some err)
    (hsize : Contains err.Error "disk exceeded maximum size" = true) :
    (ToExt4 os fs img rootfsPath sizeLimit).err
      = some (errorsNew ("build failed - exceeded maximum size "
          ++ toString (sizeLimit >>> ToMBShift) ++ " MB")) ∧
    (ToExt4 os fs img rootfsPath sizeLimit).fs.lookup rootfsPath
      = some (os.Convert img.tar sizeLimit).1 ∧
    ToExt4Effect.closeFile rootfsPath ∈ (ToExt4 os fs img rootfsPath sizeLimit).effects ∧
    (∀ p : String, p ≠ rootfsPath →
      (ToExt4 os fs img rootfsPath sizeLimit).fs.lookup p = fs.lookup p) := by
  have hfs : (ToExt4 os fs img rootfsPath sizeLimit).fs
      = (fs.writeFile rootfsPath []).writeFile rootfsPath (os.Convert img.tar sizeLimit).1 := by
    simp only [ToExt4, hcreate, hconv, hsize, if_true]
  refine ⟨?_, ?_, ?_, ?_⟩
  · simp only [ToExt4, hcreate, hconv, hsize, if_true]
  · rw [hfs]; exact FileSystem.lookup_writeFile_self _ _ _
  · simp only [ToExt4, hcreate, hconv, hsize, if_true, closeRootfs]
    cases os.Close <;> simp
  · intro p hp
    rw [hfs, FileSystem.lookup_writeFile_of_ne _ _ _ p hp,
      FileSystem.lookup_writeFile_of_ne _ _ _ p hp]

theorem C5_size_exceeded_leaves_file_witness :
    (ToExt4 osDiskExceeded [("/etc/hosts", [49])] ⟨[]⟩ "/fc-vm/rootfs.ext4" 1048576).err
      = some (errorsNew ("build failed - exceeded maximum size "
          ++ toString ((1048576 : Int) >>> ToMBShift) ++ " MB")) ∧
    (ToExt4 osDiskExceeded [("/etc/hosts", [49])] ⟨[]⟩ "/fc-vm/rootfs.ext4" 1048576).fs.lookup
        "/fc-vm/rootfs.ext4" = some [1, 2, 3] :=
  have h := C5_size_exceeded_leaves_file osDiskExceeded [("/etc/hosts", [49])] ⟨[]⟩
    "/fc-vm/rootfs.ext4" 1048576 (errorsNew "disk exceeded maximum size") rfl rfl (by decide)
  ⟨h.1, h.2.1⟩

/-- C6: once the file is created, a converter error whose text contains "disk exceeded maximum
size" makes `ToExt4` return the error "build failed - exceeded maximum size N MB" with
N = sizeLimit >> 20 = floor(sizeLimit / 1048576), which wraps nothing; every other converter
error is returned as "error converting tar to ext4: ..." wrapping the converter error; the two
kinds of error differ, as values and as texts. -/
theorem C6_size_error_distinct_from_generic (os : ToExt4Calls) (fs : FileSystem) (img : Image)
    (rootfsPath : String) (sizeLimit : Int) (err : GoError)
    (hcreate : os.Create rootfsPath = none)
    (hconv : (os.Convert img.tar sizeLimit).2 = some err) :
    (Contains err.Error "disk exceeded maximum size" = true →
      ∃ e : GoError, (ToExt4 os fs img rootfsPath sizeLimit).err = some e ∧
        e.Error = "build failed - exceeded maximum size "
          ++ toString (sizeLimit >>> ToMBShift) ++ " MB" ∧
        e.Unwrap = none) ∧
    (Contains err.Error "disk exceeded maximum size" = false →
      ∃ e : GoError, (ToExt4 os fs img rootfsPath sizeLimit).err = some e ∧
        e.Error = "error converting tar to ext4: " ++ err.Error ∧
        e.Unwrap = some err) ∧
    sizeLimit >>> ToMBShift = ⌊(sizeLimit : ℚ) / 1048576⌋ ∧
    (0 ≤ sizeLimit → sizeLimit >>> ToMBShift = ((sizeLimit.toNat / 1048576 : Nat) : Int)) ∧
    (∀ (n : Int) (other : GoError),
      errorsNew ("build failed - exceeded maximum size " ++ toString (n >>> ToMBShift) ++ " MB")
        ≠ errorfW "error converting tar to ext4: " other ∧
      (errorsNew ("build failed - exceeded maximum size "
          ++ toString (n >>> ToMBShift) ++ " MB")).Error
        ≠ (errorfW "error converting tar to ext4: " other).Error) := by
  refine ⟨?_, ?_, shiftRight_ToMBShift_eq_floor sizeLimit, ?_, ?_⟩
  · intro hsize
    refine ⟨errorsNew ("build failed - exceeded maximum size "
      ++ toString (sizeLimit >>> ToMBShift) ++ " MB"), ?_, rfl, rfl⟩
    simp only [ToExt4, hcreate, hconv, hsize, if_true]
  · intro hsize
    refine ⟨errorfW "error converting tar to ext4: " err, ?_, rfl, rfl⟩
    simp [ToExt4, hcreate, hconv, hsize]
  · intro h0
    unfold ToMBShift
    rw [Int.shiftRight_eq_div_pow]
    omega
  · intro n other
    refine ⟨?_, ?_⟩
    · simp [errorsNew, errorfW]
    · exact size_message_ne_generic_message _ _

theorem C6_size_error_distinct_from_generic_witness :
    (∃ e : GoError,
      (ToExt4 osDiskExceeded [] ⟨[]⟩ "/fc-vm/rootfs.ext4" 5368709120).err = some e ∧
      e.Error = "build failed - exceeded maximum size "
        ++ toString ((5368709120 : Int) >>> ToMBShift) ++ " MB" ∧
      e.Unwrap = none) ∧
    (∃ e : GoError,
      (ToExt4 osBadTar [] ⟨[]⟩ "/fc-vm/rootfs.ext4" 5368709120).err = some e ∧
      e.Error = "error converting tar to ext4: " ++ (errorsNew "unexpected EOF").Error ∧
      e.Unwrap = some (errorsNew "unexpected EOF")) :=
  ⟨(C6_size_error_distinct_from_generic osDiskExceeded [] ⟨[]⟩ "/fc-vm/rootfs.ext4"
      5368709120 (errorsNew "disk exceeded maximum size") rfl rfl).1 (by decide),
   (C6_size_error_distinct_from_generic osBadTar [] ⟨[]⟩ "/fc-vm/rootfs.ext4"
      5368709120 (errorsNew "unexpected EOF") rfl rfl).2.1 (by decide)⟩

/-! ## Claims about the server lifecycle -/

/-- C7: called with a context that is already done, `ServerStore.Close` returns the non-nil
error "context canceled during server graceful shutdown" at once, whatever the server state:
the store, and so `healthStatus`, is unchanged, and there is no effect at all, in particular
no sleep and no wait on the build wait group. -/
theorem C7_close_with_done_context (isLocal : Bool) (s : ServerStore) :
    (ServerStore.Close isLocal true s).err
      = some (errorsNew "context canceled during server graceful shutdown") ∧
    (ServerStore.Close isLocal true s).store = s ∧
    (ServerStore.Close isLocal true s).store.healthStatus = s.healthStatus ∧
    (ServerStore.Close isLocal true s).effects = [] ∧
    CloseEffect.wgWait ∉ (ServerStore.Close isLocal true s).effects ∧
    (∀ d : Duration, CloseEffect.sleep d ∉ (ServerStore.Close isLocal true s).effects) := by
  simp [ServerStore.Close]

/-- C8: called with a context that is not done, `ServerStore.Close` returns nil and its effects
other than log lines are, in order: set `healthStatus` to Draining, sleep 5 seconds, wait for
the build wait group, sleep 15 seconds; both sleeps are present exactly when `env.IsLocal()`
is false, that is when `ENVIRONMENT` is set to something other than `local`. Draining is set
before the wait, and the wait is among the effects of every such call, before the return. -/
theorem C8_close_effect_order (getenv : String → String) (s : ServerStore) :
    (ServerStore.Close (IsLocal getenv) false s).err = none ∧
    (ServerStore.Close (IsLocal getenv) false s).store.healthStatus = .Draining ∧
    (ServerStore.Close (IsLocal getenv) false s).effects.filter (fun e => !e.isLog)
      = (if IsLocal getenv then [.setHealthStatus .Draining, .wgWait]
         else [.setHealthStatus .Draining, .sleep (5 * Second), .wgWait, .sleep (15 * Second)]) ∧
    (ServerStore.Close (IsLocal getenv) false s).effects
      = (if IsLocal getenv then
          [.logInfo "marking service as draining", .setHealthStatus .Draining,
           .logInfo "waiting for all jobs to finish", .wgWait]
         else
          [.logInfo "marking service as draining", .setHealthStatus .Draining,
           .sleep (5 * Second),
           .logInfo "waiting for all jobs to finish", .wgWait,
           .logInfo "waiting before shutting down server", .sleep (15 * Second)]) ∧
    ((∃ d : Duration, CloseEffect.sleep d ∈ (ServerStore.Close (IsLocal getenv) false s).effects)
      ↔ IsLocal getenv = false) ∧
    (IsLocal getenv = true ↔ (getenv "ENVIRONMENT" = "" ∨ getenv "ENVIRONMENT" = "local")) ∧
    (∃ before after : List CloseEffect,
      (ServerStore.Close (IsLocal getenv) false s).effects = before ++ CloseEffect.wgWait :: after ∧
      CloseEffect.setHealthStatus .Draining ∈ before ∧ CloseEffect.wgWait ∉ before ∧
      CloseEffect.wgWait ∉ after) := by
  have hloc : IsLocal getenv = true ↔ (getenv "ENVIRONMENT" = "" ∨ getenv "ENVIRONMENT" = "local") := by
    unfold IsLocal environment GetEnvString
    by_cases h : getenv "ENVIRONMENT" = ""
    · simp [h]
    · simp [h]
  refine ⟨rfl, rfl, ?_, ?_, ?_, hloc, ?_⟩
  · cases IsLocal getenv <;> simp [ServerStore.Close, CloseEffect.isLog]
  · cases IsLocal getenv <;> simp [ServerStore.Close]
  · cases IsLocal getenv <;> simp [ServerStore.Close]
  · cases IsLocal getenv
    · exact ⟨[.logInfo "marking service as draining", .setHealthStatus .Draining,
        .sleep (5 * Second), .logInfo "waiting for all jobs to finish"],
        [.logInfo "waiting before shutting down server", .sleep (15 * Second)],
        by simp [ServerStore.Close], by simp, by simp, by simp⟩
    · exact ⟨[.logInfo "marking service as draining", .setHealthStatus .Draining,
        .logInfo "waiting for all jobs to finish"], [],
        by simp [ServerStore.Close], by simp, by simp, by simp⟩

theorem closeAll_draining (isLocal : Bool) :
    ∀ (ctxs : List Bool) (s : ServerStore), s.healthStatus = .Draining →
      (closeAll isLocal ctxs s).healthStatus = .Draining := by
  intro ctxs
  induction ctxs with
  | nil => intro s h; exact h
  | cons c rest ih =>
    intro s h
    apply ih
    cases c
    · rfl
    · exact h

/-- C9: the store returned by `New` is Healthy; a `Close`, whatever its context, leaves a
Draining store Draining, so after any sequence of `Close` calls a store that was Draining is
still Draining; and a store that is Healthy after a `Close` was Healthy before it (that call
had a done context): nothing sets `healthStatus` back to Healthy. -/
theorem C9_health_monotone :
    (∀ (calls : NewCalls) (s : ServerStore),
      New calls = .returns (some s) none → s.healthStatus = .Healthy) ∧
    (∀ (isLocal ctxDone : Bool) (s : ServerStore), s.healthStatus = .Draining →
      (ServerStore.Close isLocal ctxDone s).store.healthStatus = .Draining) ∧
    (∀ (isLocal : Bool) (ctxs : List Bool) (s : ServerStore), s.healthStatus = .Draining →
      (closeAll isLocal ctxs s).healthStatus = .Draining) ∧
    (∀ (isLocal : Bool) (ctxs₁ ctxs₂ : List Bool) (s : ServerStore),
      (closeAll isLocal ctxs₁ s).healthStatus = .Draining →
      (closeAll isLocal (ctxs₁ ++ ctxs₂) s).healthStatus = .Draining) ∧
    (∀ (isLocal ctxDone : Bool) (s : ServerStore),
      (ServerStore.Close isLocal ctxDone s).store.healthStatus = .Healthy →
      s.healthStatus = .Healthy ∧ ctxDone = true) := by
  refine ⟨?_, ?_, closeAll_draining, ?_, ?_⟩
  · intro calls s h
    unfold New at h
    cases h1 : calls.CheckRequired <;> rw [h1] at h <;> simp only at h
    · cases h2 : calls.LoadDefaultConfig <;> rw [h2] at h <;> simp only at h
      · cases h3 : calls.GetTemplateStorageProvider <;> rw [h3] at h <;> simp only at h
        · simp only [NewOutcome.returns.injEq, Option.some.injEq, and_true] at h
          rw [← h]
        · simp at h
      · simp at h
    · simp at h
  · intro isLocal ctxDone s h
    cases ctxDone
    · rfl
    · exact h
  · intro isLocal ctxs₁ ctxs₂ s h
    have happ : ∀ (l : List Bool) (t : ServerStore),
        closeAll isLocal (l ++ ctxs₂) t = closeAll isLocal ctxs₂ (closeAll isLocal l t) := by
      intro l
      induction l with
      | nil => intro t; rfl
      | cons c rest ih => intro t; exact ih _
    rw [happ]
    exact closeAll_draining isLocal ctxs₂ _ h
  · intro isLocal ctxDone s h
    cases ctxDone
    · simp [ServerStore.Close] at h
    · exact ⟨h, rfl⟩

theorem C9_health_monotone_witness :
    (New ⟨none, none, none⟩ = .returns (some ⟨.Healthy⟩) none ∧
      (⟨.Healthy⟩ : ServerStore).healthStatus = .Healthy) ∧
    (closeAll false [true, false, true, false] ⟨.Draining⟩).healthStatus = .Draining ∧
    (closeAll false ([true, false] ++ [true, true]) ⟨.Healthy⟩).healthStatus = .Draining :=
  ⟨⟨rfl, C9_health_monotone.1 ⟨none, none, none⟩ ⟨.Healthy⟩ rfl⟩,
   C9_health_monotone.2.2.1 false [true, false, true, false] ⟨.Draining⟩ rfl,
   C9_health_monotone.2.2.2.1 false [true, false] [true, true] ⟨.Healthy⟩ rfl⟩

/-! ## Claims about `GetImageSize` -/

theorem wrapInt64_add_wrapInt64 (a b : Int) :
    wrapInt64 (wrapInt64 a + b) = wrapInt64 (a + b) := by
  unfold wrapInt64
  omega

theorem wrapInt64_of_fits (x : Int) (hlo : -9223372036854775808 ≤ x)
    (hhi : x ≤ 9223372036854775807) : wrapInt64 x = x := by
  unfold wrapInt64
  omega

theorem sumLayerSizes_ok (sizes : List Int) :
    ∀ (index : Nat) (imageSize : Int),
      sumLayerSizes (sizes.map Except.ok) index (wrapInt64 imageSize)
        = (wrapInt64 (imageSize + sizes.sum), none) := by
  induction sizes with
  | nil => intro index imageSize; simp [sumLayerSizes]
  | cons a t ih =>
    intro index imageSize
    simp only [List.map_cons, sumLayerSizes, List.sum_cons]
    rw [wrapInt64_add_wrapInt64, ih (index + 1) (imageSize + a), Int.add_assoc]

theorem sumLayerSizes_first_error (sizes : List Int) (err : GoError)
    (rest : List (Except GoError Int)) :
    ∀ (index : Nat) (imageSize : Int),
      sumLayerSizes (sizes.map Except.ok ++ .error err :: rest) index imageSize
        = (0, some (errorfW ("error getting layer (" ++ toString (index + sizes.length)
            ++ ") size: ") err)) := by
  induction sizes with
  | nil => intro index imageSize; simp [sumLayerSizes]
  | cons a t ih =>
    intro index imageSize
    have h := ih (index + 1) (wrapInt64 (imageSize + a))
    have hlen : index + 1 + t.length = index + (t.length + 1) := by omega
    rw [hlen] at h
    simpa only [List.map_cons, List.cons_append, sumLayerSizes, List.length_cons] using h

/-- C11, as stated, fails: for an image with two layers that each report the size 2^62,
`GetImageSize` returns -2^63 and no error, not the exact sum 2^63, because the running total is
an int64. -/
theorem C11_counterexample :
    GetImageSize (.ok [.ok 4611686018427387904, .ok 4611686018427387904])
      = (-9223372036854775808, none) ∧
    ([4611686018427387904, 4611686018427387904] : List Int).sum = 9223372036854775808 ∧
    (GetImageSize (.ok [.ok 4611686018427387904, .ok 4611686018427387904])).1
      ≠ ([4611686018427387904, 4611686018427387904] : List Int).sum := by
  decide

/-- C11, amended: if every layer reports a size, `GetImageSize` returns no error and the sum of
all layer sizes in int64 arithmetic, which is the exact sum whenever the exact sum lies between
-2^63 and 2^63 - 1 (0 for an image with no layers); if some layer fails to report its size,
`GetImageSize` returns 0 and an error that names the index of the first failing layer and wraps
its error; if the layer list is unavailable it returns 0 and an error wrapping that failure. -/
theorem C11_image_size_is_int64_sum :
    (∀ sizes : List Int,
      GetImageSize (.ok (sizes.map Except.ok)) = (wrapInt64 sizes.sum, none)) ∧
    (∀ sizes : List Int, -9223372036854775808 ≤ sizes.sum → sizes.sum ≤ 9223372036854775807 →
      GetImageSize (.ok (sizes.map Except.ok)) = (sizes.sum, none)) ∧
    GetImageSize (.ok []) = (0, none) ∧
    (∀ (sizes : List Int) (err : GoError) (rest : List (Except GoError Int)),
      GetImageSize (.ok (sizes.map Except.ok ++ .error err :: rest))
        = (0, some (errorfW ("error getting layer (" ++ toString sizes.length ++ ") size: ")
            err))) ∧
    (∀ err : GoError,
      GetImageSize (.error err) = (0, some (errorfW "error getting image layers: " err))) := by
  have hsum : ∀ sizes : List Int,
      GetImageSize (.ok (sizes.map Except.ok)) = (wrapInt64 sizes.sum, none) := by
    intro sizes
    have h := sumLayerSizes_ok sizes 0 0
    have h0 : wrapInt64 0 = 0 := by decide
    rw [h0, Int.zero_add] at h
    exact h
  refine ⟨hsum, ?_, rfl, ?_, fun _ => rfl⟩
  · intro sizes hlo hhi
    rw [hsum sizes, wrapInt64_of_fits _ hlo hhi]
  · intro sizes err rest
    have h := sumLayerSizes_first_error sizes err rest 0 0
    rw [Nat.zero_add] at h
    exact h

theorem C11_image_size_is_int64_sum_witness :
    GetImageSize (.ok ([52428800, 1048576, 7].map Except.ok)) = (53477383, none) ∧
    GetImageSize (.ok ([52428800, 1048576].map Except.ok
        ++ .error (errorsNew "blob unknown") :: [.ok 7]))
      = (0, some (errorfW "error getting layer (2) size: " (errorsNew "blob unknown"))) :=
  ⟨C11_image_size_is_int64_sum.2.1 [52428800, 1048576, 7] (by decide) (by decide),
   C11_image_size_is_int64_sum.2.2.2.1 [52428800, 1048576] (errorsNew "blob unknown") [.ok 7]⟩

/-! ## Claims about eviction -/

/-- C13, as stated, fails for an item without a diff: `Add("b2", "memfile", nil)` stores the
nil `Diff` under the key; when that item has expired and a cleanup pass evicts it, the callback
calls `Close` on the nil value and panics instead of completing normally. -/
theorem C13_counterexample :
    (DiffStore.Add keys0 0 NewDiffStore "b2" "memfile" none).cache.find "b2/memfile"
      = some { key := "b2/memfile", value := none, ttl := buildExpiration,
               expiresAt := 0 + buildExpiration } ∧
    DiffStore.evictExpired closeFailsAt1 (buildExpiration + 1)
        (DiffStore.Add keys0 0 NewDiffStore "b2" "memfile" none)
      = ({ cache := { ttl := buildExpiration, disableTouchOnHit := false, items := [] } },
         [({ key := "b2/memfile", value := none, ttl := buildExpiration,
             expiresAt := 0 + buildExpiration }, .panics)]) ∧
    onEviction closeFailsAt1
        { key := "b2/memfile", value := none, ttl := buildExpiration,
          expiresAt := 0 + buildExpiration } = .panics := by
  decide

/-- C13, amended: run on an evicted item that holds a diff, the eviction callback registered by
`NewDiffStore` calls `Close` on that diff exactly once and returns normally for every outcome
of that `Close`: on success it prints nothing, on an error it prints one line with the item key
and the error and propagates nothing. In a cleanup pass every expired item is removed from the
cache whatever `Close` returns, and the callback runs once for each of them, also after an
earlier `Close` failed. -/
theorem C13_close_error_only_printed (Close : DiffObj → Option GoError) :
    (∀ (item : Item) (d : DiffObj), item.value = some d →
      ∃ r : EvictionRun, onEviction Close item = .returns r ∧
        r.calls = [.Close d] ∧ r.calls.count (.Close d) = 1 ∧
        (Close d = none → r.printed = []) ∧
        (∀ err : GoError, Close d = some err →
          r.printed = ["[build data cache]: failed to cleanup build data for item " ++ item.key
            ++ ": " ++ err.Error ++ "\n"])) ∧
    (∀ (now : Time) (s : DiffStore),
      (∀ item : Item, item ∈ (DiffStore.evictExpired Close now s).1.cache.items
        ↔ (item ∈ s.cache.items ∧ item.isExpired now = false)) ∧
      (∀ Close₁ : DiffObj → Option GoError,
        (DiffStore.evictExpired Close₁ now s).1 = (DiffStore.evictExpired Close now s).1) ∧
      (DiffStore.evictExpired Close now s).2
        = (s.cache.items.filter (fun i => i.isExpired now)).map
            (fun item => (item, onEviction Close item))) := by
  refine ⟨?_, ?_⟩
  · intro item d hd
    cases hc : Close d with
    | none =>
      refine ⟨{ calls := [.Close d], printed := [] }, ?_, rfl, by simp, fun _ => rfl, ?_⟩
      · simp [onEviction, hd, hc]
      · intro err he; simp at he
    | some e =>
      refine ⟨{ calls := [.Close d],
                printed := ["[build data cache]: failed to cleanup build data for item "
                  ++ item.key ++ ": " ++ e.Error ++ "\n"] }, ?_, rfl, by simp, ?_, ?_⟩
      · simp [onEviction, hd, hc]
      · intro he; simp at he
      · intro err he
        have : e = err := by simpa using he
        rw [this]
  · intro now s
    refine ⟨?_, fun _ => rfl, rfl⟩
    intro item
    simp [DiffStore.evictExpired, Cache.DeleteExpired, List.mem_filter]

theorem C13_close_error_only_printed_witness :
    (∃ r : EvictionRun,
      onEviction closeFailsAt1
        { key := "b1/rootfs", value := some { addr := 1, CacheKey := "b1/rootfs" },
          ttl := buildExpiration, expiresAt := buildExpiration } = .returns r ∧
      r.calls = [.Close { addr := 1, CacheKey := "b1/rootfs" }]) ∧
    (DiffStore.evictExpired closeFailsAt1 (buildExpiration + 1) storeTwoDiffs).2
      = (storeTwoDiffs.cache.items.filter (fun i => i.isExpired (buildExpiration + 1))).map
          (fun item => (item, onEviction closeFailsAt1 item)) :=
  ⟨((C13_close_error_only_printed closeFailsAt1).1
      { key := "b1/rootfs", value := some { addr := 1, CacheKey := "b1/rootfs" },
        ttl := buildExpiration, expiresAt := buildExpiration }
      { addr := 1, CacheKey := "b1/rootfs" } rfl).imp (fun _ h => ⟨h.1, h.2.1⟩),
   ((C13_close_error_only_printed closeFailsAt1).2 (buildExpiration + 1) storeTwoDiffs).2.2⟩

/-! ## Interleaved calls of `DiffStore.Get` -/

theorem Cache.live_put_self (c : Cache) (now : Time) (item : Item)
    (h : item.isExpired now = false) : (c.put item).live now item.key = some item := by
  simp only [Cache.live, Cache.find_put_self, h]
  rfl

theorem Cache.get_hit_live (c : Cache) (now : Time) (key : String) (touch : Bool)
    (item : Item) (h : c.live now key = some item) :
    ∃ item₁ : Item, (c.get now key touch).1 = some item₁ ∧ item₁.value = item.value ∧
      (c.get now key touch).2.live now key = some item₁ := by
  unfold Cache.live at h
  unfold Cache.get
  cases hf : c.find key with
  | none => rw [hf] at h; simp at h
  | some it =>
    rw [hf] at h
    have hkey := Cache.key_of_find hf
    by_cases he : it.isExpired now = true
    · simp [he] at h
    · have he' : it.isExpired now = false := by simpa using he
      simp only [he'] at h
      have hit : it = item := by simpa using h
      subst hit
      simp only [he']
      by_cases ht : (touch && decide (it.ttl > 0)) = true
      · simp only [ht, if_true]
        have hpos : it.ttl > 0 := by
          have := (Bool.and_eq_true _ _).mp ht
          simpa using this.2
        have hlive : ({ it with expiresAt := now + it.ttl } : Item).isExpired now = false := by
          have h1 : ¬ it.ttl ≤ 0 := not_le.mpr hpos
          simp only [Item.isExpired, h1, if_false, decide_eq_false_iff_not, not_lt]
          exact le_add_of_nonneg_right (le_of_lt hpos)
        refine ⟨_, rfl, rfl, ?_⟩
        have := Cache.live_put_self c now { it with expiresAt := now + it.ttl } hlive
        simpa [hkey] using this
      · simp only [ht]
        refine ⟨_, rfl, rfl, ?_⟩
        have := Cache.live_put_self c now it he'
        simpa [hkey] using this

theorem DiffStore.GetLookup_miss (kd : KeyDerivation) (now : Time) (addr : Nat) (s : DiffStore)
    (buildId : String) (diffType : DiffType) (blockSize : Int)
    (hmiss : s.cache.live now (kd.cacheKey buildId diffType blockSize) = none) :
    (DiffStore.GetLookup kd now addr s buildId diffType blockSize).1
      = { diff := newStorageDiff kd addr buildId diffType blockSize,
          value := some (newStorageDiff kd addr buildId diffType blockSize), found := false } ∧
    (DiffStore.GetLookup kd now addr s buildId diffType blockSize).2.cache.live now
        (kd.cacheKey buildId diffType blockSize)
      = some (newItem now (kd.cacheKey buildId diffType blockSize)
          (some (newStorageDiff kd addr buildId diffType blockSize)) buildExpiration) := by
  have hg := Cache.get_of_live_none s.cache now (kd.cacheKey buildId diffType blockSize)
  have hne := buildExpiration_ne_default
  have hlive := Cache.live_put_self s.cache now
    (newItem now (kd.cacheKey buildId diffType blockSize)
      (some (newStorageDiff kd addr buildId diffType blockSize)) buildExpiration)
    (newItem_live now now _ _ (le_add_of_nonneg_right (le_of_lt buildExpiration_pos)))
  constructor
  · simp only [DiffStore.GetLookup, Cache.GetOrSet, newStorageDiff, hg _ hmiss, Cache.Set, hne,
      if_false, newItem]
  · simp only [DiffStore.GetLookup, Cache.GetOrSet, newStorageDiff, hg _ hmiss, Cache.Set, hne,
      if_false]
    exact hlive

theorem DiffStore.GetLookup_hit (kd : KeyDerivation) (now : Time) (addr : Nat) (s : DiffStore)
    (buildId : String) (diffType : DiffType) (blockSize : Int) (item : Item) (d : DiffObj)
    (hlive : s.cache.live now (kd.cacheKey buildId diffType blockSize) = some item)
    (hval : item.value = some d) :
    (DiffStore.GetLookup kd now addr s buildId diffType blockSize).1
      = { diff := newStorageDiff kd addr buildId diffType blockSize,
          value := some d, found := true } ∧
    ∃ item₁ : Item,
      (DiffStore.GetLookup kd now addr s buildId diffType blockSize).2.cache.live now
        (kd.cacheKey buildId diffType blockSize) = some item₁ ∧ item₁.value = some d := by
  obtain ⟨item₁, h1, h2, h3⟩ := Cache.get_hit_live s.cache now
    (kd.cacheKey buildId diffType blockSize) (!s.cache.disableTouchOnHit) item hlive
  cases hg : s.cache.get now (kd.cacheKey buildId diffType blockSize)
      (!s.cache.disableTouchOnHit) with
  | mk found c₁ =>
    rw [hg] at h1 h3
    simp only at h1 h3
    subst h1
    have hv : item₁.value = some d := by rw [h2, hval]
    refine ⟨?_, item₁, ?_, hv⟩
    · simp [DiffStore.GetLookup, Cache.GetOrSet, newStorageDiff, hg, hv]
    · simp only [DiffStore.GetLookup, Cache.GetOrSet, newStorageDiff, hg]
      exact h3

/-- The two steps of a call, run one after the other, are `DiffStore.Get`. -/
theorem DiffStore.Get_eq_two_steps (kd : KeyDerivation) (Init : DiffObj → Option GoError)
    (now : Time) (addr : Nat) (s : DiffStore) (buildId : String) (diffType : DiffType)
    (blockSize : Int) :
    DiffStore.Get kd Init now addr s buildId diffType blockSize
      = { value := (DiffStore.GetFinish Init
            (DiffStore.GetLookup kd now addr s buildId diffType blockSize).1).1.1,
          err := (DiffStore.GetFinish Init
            (DiffStore.GetLookup kd now addr s buildId diffType blockSize).1).1.2,
          store := (DiffStore.GetLookup kd now addr s buildId diffType blockSize).2,
          calls := (DiffStore.GetFinish Init
            (DiffStore.GetLookup kd now addr s buildId diffType blockSize).1).2 } := by
  simp only [DiffStore.Get, DiffStore.GetFinish, DiffStore.GetLookup]
  split
  · rfl
  · split
    · cases Init (newStorageDiff kd addr buildId diffType blockSize) <;> rfl
    · rfl

theorem countP_set {α : Type} (p : α → Bool) (x : α) :
    ∀ (l : List α) (i : Nat) (y : α), l[i]? = some y →
      (l.set i x).countP p + (if p y then 1 else 0) = l.countP p + (if p x then 1 else 0) := by
  intro l
  induction l with
  | nil => intro i y h; simp at h
  | cons a t ih =>
    intro i y h
    cases i with
    | zero =>
      have : a = y := by simpa using h
      subst this
      simp only [List.set_cons_zero, List.countP_cons]
      omega
    | succ j =>
      have h' : t[j]? = some y := by simpa using h
      have := ih j y h'
      simp only [List.set_cons_succ, List.countP_cons]
      omega

theorem countP_owesInit_of_all_waiting (l : List GetCaller)
    (h : ∀ x ∈ l, ∃ addr, x = GetCaller.waiting addr) : l.countP GetCaller.owesInit = 0 := by
  rw [List.countP_eq_zero]
  intro x hx
  obtain ⟨addr, rfl⟩ := h x hx
  simp [GetCaller.owesInit]

/-- Every step of every caller preserves the invariant. -/
theorem ConcurrentGets.Inv_step (kd : KeyDerivation) (Init : DiffObj → Option GoError)
    (now : Time) (buildId : String) (diffType : DiffType) (blockSize : Int)
    (c : ConcurrentGets) (i : Nat)
    (h : ConcurrentGets.Inv now (kd.cacheKey buildId diffType blockSize) c) :
    ConcurrentGets.Inv now (kd.cacheKey buildId diffType blockSize)
      (ConcurrentGets.step kd Init now buildId diffType blockSize c i) := by
  unfold ConcurrentGets.step
  cases hi : c.callers[i]? with
  | none => exact h
  | some x =>
    have hmem : x ∈ c.callers := List.getElem?_mem hi
    cases x with
    | waiting addr =>
      simp only
      rcases h with ⟨hmiss, hcalls, hall⟩ | ⟨d, item, hlive, hval, hagree, hcount⟩
      · obtain ⟨h1, h2⟩ :=
          DiffStore.GetLookup_miss kd now addr c.store buildId diffType blockSize hmiss
        right
        refine ⟨newStorageDiff kd addr buildId diffType blockSize, _, h2, rfl, ?_, Or.inl ⟨?_, hcalls⟩⟩
        · intro y hy
          rcases List.mem_or_eq_of_mem_set hy with hy | hy
          · obtain ⟨a, rfl⟩ := hall y hy
            trivial
          · rw [hy, h1]
            exact ⟨rfl, fun _ => rfl⟩
        · have hc := countP_set GetCaller.owesInit
            (GetCaller.looked
              (DiffStore.GetLookup kd now addr c.store buildId diffType blockSize).1)
            c.callers i _ hi
          have ho : (GetCaller.looked
              (DiffStore.GetLookup kd now addr c.store buildId diffType blockSize).1).owesInit
              = true := by rw [h1]; rfl
          have hw : (GetCaller.waiting addr).owesInit = false := rfl
          rw [countP_owesInit_of_all_waiting c.callers hall, ho, hw] at hc
          simp only [if_true, Bool.false_eq_true, if_false] at hc
          show List.countP GetCaller.owesInit (c.callers.set i _) = 1
          omega
      · obtain ⟨h1, item₁, h3, h4⟩ :=
          DiffStore.GetLookup_hit kd now addr c.store buildId diffType blockSize item d hlive hval
        right
        have hc := countP_set GetCaller.owesInit
          (GetCaller.looked
            (DiffStore.GetLookup kd now addr c.store buildId diffType blockSize).1)
          c.callers i _ hi
        have ho : (GetCaller.looked
            (DiffStore.GetLookup kd now addr c.store buildId diffType blockSize).1).owesInit
            = false := by rw [h1]; rfl
        have hw : (GetCaller.waiting addr).owesInit = false := rfl
        rw [ho, hw] at hc
        simp only [Bool.false_eq_true, if_false, Nat.add_zero] at hc
        refine ⟨d, item₁, h3, h4, ?_, ?_⟩
        · intro y hy
          rcases List.mem_or_eq_of_mem_set hy with hy | hy
          · exact hagree y hy
          · rw [hy, h1]
            exact ⟨rfl, fun hf => by simp at hf⟩
        · show (List.countP GetCaller.owesInit (c.callers.set i _) = 1 ∧ c.calls = []) ∨
            (List.countP GetCaller.owesInit (c.callers.set i _) = 0 ∧ c.calls = [.Init d])
          rw [hc]
          exact hcount
    | looked l =>
      simp only
      rcases h with ⟨_, _, hall⟩ | ⟨d, item, hlive, hval, hagree, hcount⟩
      · obtain ⟨a, ha⟩ := hall _ hmem
        cases ha
      · obtain ⟨hlv, hld⟩ := hagree _ hmem
        have hne : ¬ l.value = none := by rw [hlv]; simp
        right
        cases hf : l.found with
        | false =>
          have hdiff : l.diff = d := hld hf
          have hc : ∀ z : GetCaller, z.owesInit = false →
              (c.callers.set i z).countP GetCaller.owesInit + 1
                = c.callers.countP GetCaller.owesInit := by
            intro z hz
            have := countP_set GetCaller.owesInit z c.callers i _ hi
            have ho : (GetCaller.looked l).owesInit = true := by
              simp [GetCaller.owesInit, hf]
            rw [ho, hz] at this
            simpa using this
          have hcalls : c.calls = [] ∧ c.callers.countP GetCaller.owesInit = 1 := by
            rcases hcount with ⟨hn, hcs⟩ | ⟨hn, hcs⟩
            · exact ⟨hcs, hn⟩
            · have := hc (GetCaller.returned none none) rfl
              omega
          cases hinit : Init d with
          | none =>
            have hfin : DiffStore.GetFinish Init l = ((some d, none), [.Init d]) := by
              simp [DiffStore.GetFinish, hne, hf, hdiff, hinit, hlv]
            rw [hfin]
            refine ⟨d, item, hlive, hval, ?_, Or.inr ⟨?_, ?_⟩⟩
            · intro y hy
              rcases List.mem_or_eq_of_mem_set hy with hy | hy
              · exact hagree y hy
              · rw [hy]
                exact Or.inl ⟨rfl, rfl⟩
            · have := hc (GetCaller.returned (some d) none) rfl
              show List.countP GetCaller.owesInit
                (c.callers.set i (GetCaller.returned (some d) none)) = 0
              omega
            · simp [hcalls.1]
          | some err =>
            have hfin : DiffStore.GetFinish Init l
                = ((none, some (errorfW "failed to init source: " err)), [.Init d]) := by
              simp [DiffStore.GetFinish, hne, hf, hdiff, hinit]
            rw [hfin]
            refine ⟨d, item, hlive, hval, ?_, Or.inr ⟨?_, ?_⟩⟩
            · intro y hy
              rcases List.mem_or_eq_of_mem_set hy with hy | hy
              · exact hagree y hy
              · rw [hy]
                exact Or.inr ⟨rfl, by simp⟩
            · have := hc (GetCaller.returned none
                (some (errorfW "failed to init source: " err))) rfl
              show List.countP GetCaller.owesInit
                (c.callers.set i (GetCaller.returned none
                  (some (errorfW "failed to init source: " err)))) = 0
              omega
            · simp [hcalls.1]
        | true =>
          have hfin : DiffStore.GetFinish Init l = ((some d, none), []) := by
            simp [DiffStore.GetFinish, hne, hf, hlv]
          rw [hfin]
          have hc := countP_set GetCaller.owesInit (GetCaller.returned (some d) none)
            c.callers i _ hi
          have ho : (GetCaller.looked l).owesInit = false := by
            simp [GetCaller.owesInit, hf]
          have hr : (GetCaller.returned (some d) none).owesInit = false := rfl
          rw [ho, hr] at hc
          simp only [Bool.false_eq_true, if_false, Nat.add_zero] at hc
          refine ⟨d, item, hlive, hval, ?_, ?_⟩
          · intro y hy
            rcases List.mem_or_eq_of_mem_set hy with hy | hy
            · exact hagree y hy
            · rw [hy]
              exact Or.inl ⟨rfl, rfl⟩
          · show (List.countP GetCaller.owesInit (c.callers.set i _) = 1 ∧ c.calls ++ [] = [])
                ∨ (List.countP GetCaller.owesInit (c.callers.set i _) = 0
                  ∧ c.calls ++ [] = [.Init d])
            rw [hc, List.append_nil]
            exact hcount
    | returned v e => exact h

theorem ConcurrentGets.Inv_run (kd : KeyDerivation) (Init : DiffObj → Option GoError)
    (now : Time) (buildId : String) (diffType : DiffType) (blockSize : Int) :
    ∀ (sched : List Nat) (c : ConcurrentGets),
      ConcurrentGets.Inv now (kd.cacheKey buildId diffType blockSize) c →
      ConcurrentGets.Inv now (kd.cacheKey buildId diffType blockSize)
        (ConcurrentGets.run kd Init now buildId diffType blockSize sched c) := by
  intro sched
  induction sched with
  | nil => intro c h; exact h
  | cons i rest ih =>
    intro c h
    exact ih _ (ConcurrentGets.Inv_step kd Init now buildId diffType blockSize c i h)

theorem ConcurrentGets.length_callers_step (kd : KeyDerivation)
    (Init : DiffObj → Option GoError) (now : Time) (buildId : String) (diffType : DiffType)
    (blockSize : Int) (c : ConcurrentGets) (i : Nat) :
    (ConcurrentGets.step kd Init now buildId diffType blockSize c i).callers.length
      = c.callers.length := by
  unfold ConcurrentGets.step
  cases hi : c.callers[i]? with
  | none => rfl
  | some x => cases x <;> simp

theorem ConcurrentGets.length_callers_run (kd : KeyDerivation)
    (Init : DiffObj → Option GoError) (now : Time) (buildId : String) (diffType : DiffType)
    (blockSize : Int) :
    ∀ (sched : List Nat) (c : ConcurrentGets),
      (ConcurrentGets.run kd Init now buildId diffType blockSize sched c).callers.length
        = c.callers.length := by
  intro sched
  induction sched with
  | nil => intro c; rfl
  | cons i rest ih =>
    intro c
    simp only [ConcurrentGets.run]
    rw [ih, ConcurrentGets.length_callers_step]

/-- C14, as stated, fails: two callers (allocating at 7 and 8) call `Get("b1", "rootfs", 4096)`
on the empty store. Caller 0 runs `GetOrSet` and misses; caller 1 runs `GetOrSet`, hits, and
returns the diff of caller 0 with a nil error before any `Init` call has been made. When caller
0 then calls `Init` and it fails, caller 1 has still received that diff without an error. -/
theorem C14_counterexample :
    ConcurrentGets.run keys0 initSucceeds 0 "b1" "rootfs" 4096 [0, 1, 1]
        (ConcurrentGets.start NewDiffStore [7, 8])
      = { store := { cache := { ttl := buildExpiration, disableTouchOnHit := false,
                                items := [{ key := "b1/rootfs",
                                            value := some { addr := 7, CacheKey := "b1/rootfs" },
                                            ttl := buildExpiration,
                                            expiresAt := 0 + buildExpiration }] } },
          callers := [.looked { diff := { addr := 7, CacheKey := "b1/rootfs" },
                                value := some { addr := 7, CacheKey := "b1/rootfs" },
                                found := false },
                      .returned (some { addr := 7, CacheKey := "b1/rootfs" }) none],
          calls := [] } ∧
    (ConcurrentGets.run keys0 initFails 0 "b1" "rootfs" 4096 [0, 1, 1, 0]
        (ConcurrentGets.start NewDiffStore [7, 8])).callers
      = [.returned none (some (errorfW "failed to init source: " (errorsNew "object not found"))),
         .returned (some { addr := 7, CacheKey := "b1/rootfs" }) none] := by
  decide

/-- C14, amended: for any number of concurrent `DiffStore.Get` calls with identical arguments on
a store where the key misses, interleaved in any order while no entry expires, at most one
`Init` call has been made at any moment and exactly one once all callers have returned; every
caller that has returned either got the one diff stored by the caller that missed, with a nil
error, or got no diff and an error. A caller whose `GetOrSet` hit returns the stored diff at
once, without any `Init` call and without waiting for the `Init` of the caller that missed. -/
theorem C14_one_init_hits_return_at_once (kd : KeyDerivation)
    (Init : DiffObj → Option GoError) (now : Time) (s : DiffStore) (buildId : String)
    (diffType : DiffType) (blockSize : Int) (addrs : List Nat) (sched : List Nat)
    (hmiss : s.cache.live now (kd.cacheKey buildId diffType blockSize) = none) :
    (ConcurrentGets.run kd Init now buildId diffType blockSize sched
        (ConcurrentGets.start s addrs)).calls.length ≤ 1 ∧
    (addrs ≠ [] →
      (∀ x ∈ (ConcurrentGets.run kd Init now buildId diffType blockSize sched
          (ConcurrentGets.start s addrs)).callers, ∃ v e, x = GetCaller.returned v e) →
      ∃ d : DiffObj, (ConcurrentGets.run kd Init now buildId diffType blockSize sched
          (ConcurrentGets.start s addrs)).calls = [.Init d]) ∧
    (∃ d : DiffObj,
      ((ConcurrentGets.run kd Init now buildId diffType blockSize sched
          (ConcurrentGets.start s addrs)).calls = [] ∨
       (ConcurrentGets.run kd Init now buildId diffType blockSize sched
          (ConcurrentGets.start s addrs)).calls = [.Init d]) ∧
      ∀ (v : Diff) (e : Option GoError),
        GetCaller.returned v e ∈ (ConcurrentGets.run kd Init now buildId diffType blockSize sched
          (ConcurrentGets.start s addrs)).callers →
        (v = some d ∧ e = none) ∨ (v = none ∧ e ≠ none)) ∧
    (∀ l : Looked, l.found = true → l.value ≠ none →
      DiffStore.GetFinish Init l = ((l.value, none), [])) := by
  have hstart : ConcurrentGets.Inv now (kd.cacheKey buildId diffType blockSize)
      (ConcurrentGets.start s addrs) := by
    left
    refine ⟨hmiss, rfl, ?_⟩
    intro x hx
    simp only [ConcurrentGets.start, List.mem_map] at hx
    obtain ⟨a, _, ha⟩ := hx
    exact ⟨a, ha.symm⟩
  have hinv := ConcurrentGets.Inv_run kd Init now buildId diffType blockSize sched _ hstart
  have hlen := ConcurrentGets.length_callers_run kd Init now buildId diffType blockSize sched
    (ConcurrentGets.start s addrs)
  generalize ConcurrentGets.run kd Init now buildId diffType blockSize sched
    (ConcurrentGets.start s addrs) = c at hinv hlen
  refine ⟨?_, ?_, ?_, ?_⟩
  · rcases hinv with ⟨_, hc, _⟩ | ⟨d, item, _, _, _, hcount⟩
    · simp [hc]
    · rcases hcount with ⟨_, hc⟩ | ⟨_, hc⟩ <;> simp [hc]
  · intro hne hall
    have hpos : 0 < c.callers.length := by
      rw [hlen]
      simp only [ConcurrentGets.start, List.length_map]
      exact List.length_pos.mpr hne
    obtain ⟨x, hx⟩ := List.exists_mem_of_length_pos hpos
    rcases hinv with ⟨_, _, hw⟩ | ⟨d, item, _, _, _, hcount⟩
    · obtain ⟨a, ha⟩ := hw x hx
      obtain ⟨v, e, hv⟩ := hall x hx
      rw [ha] at hv
      cases hv
    · have hzero : c.callers.countP GetCaller.owesInit = 0 := by
        rw [List.countP_eq_zero]
        intro y hy
        obtain ⟨v, e, hv⟩ := hall y hy
        rw [hv]
        simp [GetCaller.owesInit]
      rcases hcount with ⟨hn, _⟩ | ⟨_, hc⟩
      · omega
      · exact ⟨d, hc⟩
  · rcases hinv with ⟨_, hc, hw⟩ | ⟨d, item, _, _, hagree, hcount⟩
    · refine ⟨{ addr := 0, CacheKey := "" }, Or.inl hc, ?_⟩
      intro v e hmem
      obtain ⟨a, ha⟩ := hw _ hmem
      cases ha
    · refine ⟨d, ?_, ?_⟩
      · rcases hcount with ⟨_, hc⟩ | ⟨_, hc⟩
        · exact Or.inl hc
        · exact Or.inr hc
      · intro v e hmem
        exact hagree _ hmem
  · intro l hf hv
    simp [DiffStore.GetFinish, hf, hv]

theorem C14_one_init_hits_return_at_once_witness :
    (ConcurrentGets.run keys0 initSucceeds 0 "b1" "rootfs" 4096 [2, 0, 1, 1, 0, 2]
        (ConcurrentGets.start NewDiffStore [7, 8, 9])).calls.length ≤ 1 ∧
    ∃ d : DiffObj,
      (ConcurrentGets.run keys0 initSucceeds 0 "b1" "rootfs" 4096 [2, 0, 1, 1, 0, 2]
        (ConcurrentGets.start NewDiffStore [7, 8, 9])).calls = [.Init d] :=
  have h := C14_one_init_hits_return_at_once keys0 initSucceeds 0 NewDiffStore "b1" "rootfs" 4096
    [7, 8, 9] [2, 0, 1, 1, 0, 2] (by decide)
  ⟨h.1, h.2.1 (by decide) (by
    have hc : (ConcurrentGets.run keys0 initSucceeds 0 "b1" "rootfs" 4096 [2, 0, 1, 1, 0, 2]
        (ConcurrentGets.start NewDiffStore [7, 8, 9])).callers
        = [.returned (some { addr := 9, CacheKey := "b1/rootfs" }) none,
           .returned (some { addr := 9, CacheKey := "b1/rootfs" }) none,
           .returned (some { addr := 9, CacheKey := "b1/rootfs" }) none] := by decide
    intro x hx
    rw [hc] at hx
    simp only [List.mem_cons, List.mem_singleton, List.not_mem_nil, or_false, or_self] at hx
    exact ⟨_, _, hx⟩)⟩

/-! ## Reading back a decimal rendering -/

theorem digitValue_digitChar (d : Nat) (h : d < 10) :
    digitValue (Nat.digitChar d) = some d := by
  interval_cases d <;> decide

theorem parseDigits_toDigitsCore :
    ∀ (fuel n : Nat) (ds : List Char), n < fuel →
      parseDigits (Nat.toDigitsCore 10 fuel n ds) 0 = parseDigits ds n := by
  intro fuel
  induction fuel with
  | zero => intro n ds h; omega
  | succ fuel ih =>
    intro n ds h
    have hd : digitValue (Nat.digitChar (n % 10)) = some (n % 10) :=
      digitValue_digitChar _ (Nat.mod_lt _ (by decide))
    simp only [Nat.toDigitsCore]
    by_cases h0 : n / 10 = 0
    · simp only [h0, if_true, parseDigits, hd]
      have : n % 10 = n := by omega
      rw [this, Nat.zero_mul, Nat.zero_add]
    · simp only [h0, if_false]
      rw [ih (n / 10) _ (by omega)]
      simp only [parseDigits, hd]
      have : n / 10 * 10 + n % 10 = n := by omega
      rw [this]

theorem parseDigits_toDigits (n : Nat) : parseDigits (Nat.toDigits 10 n) 0 = some n := by
  unfold Nat.toDigits
  rw [parseDigits_toDigitsCore (n + 1) n [] (by omega)]
  rfl

theorem toDigitsCore_ne_nil_of_ne_nil :
    ∀ (fuel n : Nat) (ds : List Char), ds ≠ [] → Nat.toDigitsCore 10 fuel n ds ≠ [] := by
  intro fuel
  induction fuel with
  | zero => intro n ds h; simpa [Nat.toDigitsCore] using h
  | succ fuel ih =>
    intro n ds _
    simp only [Nat.toDigitsCore]
    by_cases h0 : n / 10 = 0
    · simp [h0]
    · simp only [h0, if_false]
      exact ih _ _ (by simp)

theorem toDigits_ne_nil (n : Nat) : Nat.toDigits 10 n ≠ [] := by
  unfold Nat.toDigits
  simp only [Nat.toDigitsCore]
  by_cases h0 : n / 10 = 0
  · simp [h0]
  · simp only [h0, if_false]
    exact toDigitsCore_ne_nil_of_ne_nil _ _ _ (by simp)

theorem toString_ofNat_toList (m : Nat) :
    (toString (Int.ofNat m)).toList = Nat.toDigits 10 m := rfl

theorem toString_negSucc_toList (m : Nat) :
    (toString (Int.negSucc m)).toList = '-' :: Nat.toDigits 10 (m + 1) := rfl

/-- The reader `ParseInt` undoes decimal formatting of every number that fits in `bitSize`
bits. -/
theorem ParseInt_toString (bitSize : Nat) (n : Int)
    (hlo : -(2 ^ (bitSize - 1) : Int) ≤ n) (hhi : n < (2 ^ (bitSize - 1) : Int)) :
    ParseInt (toString n) bitSize = some n := by
  cases n with
  | ofNat m =>
    have hm : m < 2 ^ (bitSize - 1) := by
      have : ((m : Nat) : Int) < ((2 ^ (bitSize - 1) : Nat) : Int) := by
        push_cast
        exact hhi
      exact Int.ofNat_lt.mp this
    have hparse := parseDigits_toDigits m
    have hne := toDigits_ne_nil m
    unfold ParseInt
    rw [toString_ofNat_toList]
    cases hl : Nat.toDigits 10 m with
    | nil => exact absurd hl hne
    | cons c rest =>
      rw [hl] at hparse
      have hc : digitValue c ≠ none := by
        intro hcn
        simp [parseDigits, hcn] at hparse
      have hplus : (c == '+') = false := by
        rw [beq_eq_false_iff_ne]
        intro e
        rw [e] at hc
        exact hc (by decide)
      have hminus : (c == '-') = false := by
        rw [beq_eq_false_iff_ne]
        intro e
        rw [e] at hc
        exact hc (by decide)
      have hge : ¬ m ≥ 2 ^ (bitSize - 1) := by omega
      simp only [hplus, hminus, Bool.or_self, Bool.false_eq_true, if_false, parseUnsigned,
        List.cons_ne_nil, hparse, Bool.not_false, Bool.true_and, decide_eq_true_eq, hge,
        Bool.false_and]
      rfl
  | negSucc m =>
    have hm : m + 1 ≤ 2 ^ (bitSize - 1) := by
      have h1 : -(((2 ^ (bitSize - 1) : Nat) : Int)) ≤ Int.negSucc m := by
        push_cast
        exact hlo
      have h2 : Int.negSucc m = -(((m + 1 : Nat)) : Int) := rfl
      rw [h2] at h1
      have h3 : (((m + 1 : Nat)) : Int) ≤ ((2 ^ (bitSize - 1) : Nat) : Int) := by omega
      exact Int.ofNat_le.mp h3
    have hparse := parseDigits_toDigits (m + 1)
    have hne := toDigits_ne_nil (m + 1)
    have hgt : ¬ m + 1 > 2 ^ (bitSize - 1) := by omega
    unfold ParseInt
    rw [toString_negSucc_toList]
    have hminus : (('-' : Char) == '-') = true := by decide
    have hplus : (('-' : Char) == '+') = false := by decide
    simp only [hminus, hplus, Bool.or_true, if_true, parseUnsigned, hne, if_false, hparse,
      Bool.not_true, Bool.false_and, Bool.false_eq_true, Bool.true_and, decide_eq_true_eq, hgt]
    rfl

theorem toString_int_ne_empty (n : Int) : toString n ≠ "" := by
  intro h
  have h2 := congrArg String.toList h
  cases n with
  | ofNat m =>
    rw [toString_ofNat_toList] at h2
    exact toDigits_ne_nil m h2
  | negSucc m =>
    rw [toString_negSucc_toList] at h2
    simp at h2

/-! ## Claims about `GetEnv` -/

/-- C15: `GetEnv(key, d)` returns exactly `d` when the variable is unset, when it is set to the
empty string, when its text does not parse as a value of the type of `d` (bool, int, int64,
time.Duration, and likewise float64), and, whatever the variable holds, when the type of `d` is
not one the type switch lists. -/
theorem C15_default_when_unset_empty_or_unparsable (lib : ParseCalls) (environ : Environ)
    (key : String) (d : EnvValue) :
    (environ.find? (fun e => e.1 == key) = none → GetEnv lib (Getenv environ) key d = d) ∧
    (Getenv environ key = "" → GetEnv lib (Getenv environ) key d = d) ∧
    (∀ b : Bool, d = .bool b → ParseBool (Getenv environ key) = none →
      GetEnv lib (Getenv environ) key d = d) ∧
    (∀ n : Int, d = .int n → Atoi lib.IntSize (Getenv environ key) = none →
      GetEnv lib (Getenv environ) key d = d) ∧
    (∀ n : Int, d = .int64 n → ParseInt (Getenv environ key) 64 = none →
      GetEnv lib (Getenv environ) key d = d) ∧
    (∀ x : Duration, d = .duration x → lib.ParseDuration (Getenv environ key) = none →
      GetEnv lib (Getenv environ) key d = d) ∧
    (∀ f : Float64, d = .float64 f → lib.ParseFloat (Getenv environ key) = none →
      GetEnv lib (Getenv environ) key d = d) ∧
    (∀ typeName printed : String, d = .other typeName printed →
      GetEnv lib (Getenv environ) key d = d) := by
  have hempty : Getenv environ key = "" → GetEnv lib (Getenv environ) key d = d := by
    intro h
    simp [GetEnv, h]
  refine ⟨?_, hempty, ?_, ?_, ?_, ?_, ?_, ?_⟩
  · intro h
    apply hempty
    simp [Getenv, h]
  · intro b hd hp
    subst hd
    by_cases hv : Getenv environ key = ""
    · exact hempty hv
    · simp [GetEnv, hv, hp]
  · intro n hd hp
    subst hd
    by_cases hv : Getenv environ key = ""
    · exact hempty hv
    · simp [GetEnv, hv, hp]
  · intro n hd hp
    subst hd
    by_cases hv : Getenv environ key = ""
    · exact hempty hv
    · simp [GetEnv, hv, hp]
  · intro x hd hp
    subst hd
    by_cases hv : Getenv environ key = ""
    · exact hempty hv
    · simp [GetEnv, hv, hp]
  · intro f hd hp
    subst hd
    by_cases hv : Getenv environ key = ""
    · exact hempty hv
    · simp [GetEnv, hv, hp]
  · intro typeName printed hd
    subst hd
    by_cases hv : Getenv environ key = ""
    · exact hempty hv
    · simp [GetEnv, hv]

theorem C15_default_when_unset_empty_or_unparsable_witness :
    GetEnv lib64 (Getenv testEnviron) "NON_EXISTENT_INT" (.int 99) = .int 99 ∧
    GetEnv lib64 (Getenv testEnviron) "EMPTY_STRING" (.string "default") = .string "default" ∧
    GetEnv lib64 (Getenv testEnviron) "TEST_INT_INVALID" (.int 99) = .int 99 ∧
    GetEnv lib64 (Getenv testEnviron) "TEST_STRUCT" (.other "testStruct" "{default}")
      = .other "testStruct" "{default}" :=
  ⟨(C15_default_when_unset_empty_or_unparsable lib64 testEnviron "NON_EXISTENT_INT"
      (.int 99)).1 (by decide),
   (C15_default_when_unset_empty_or_unparsable lib64 testEnviron "EMPTY_STRING"
      (.string "default")).2.1 (by decide),
   (C15_default_when_unset_empty_or_unparsable lib64 testEnviron "TEST_INT_INVALID"
      (.int 99)).2.2.2.1 99 rfl (by decide),
   (C15_default_when_unset_empty_or_unparsable lib64 testEnviron "TEST_STRUCT"
      (.other "testStruct" "{default}")).2.2.2.2.2.2.2 "testStruct" "{default}" rfl⟩

/-- C16: when the variable holds the decimal rendering of an integer `n` that is representable
in the target type (`int`, of 32 or 64 bits, or `int64`), `GetEnv` returns `n`, whatever the
default `d` of that type is: negative numbers and the extremes of the range included. -/
theorem C16_integer_round_trip (lib : ParseCalls) (getenv : String → String) (key : String)
    (n d : Int) (hval : getenv key = toString n) :
    ((lib.IntSize = 32 ∨ lib.IntSize = 64) →
      -(2 ^ (lib.IntSize - 1) : Int) ≤ n → n < (2 ^ (lib.IntSize - 1) : Int) →
      GetEnv lib getenv key (.int d) = .int n) ∧
    (-9223372036854775808 ≤ n → n ≤ 9223372036854775807 →
      GetEnv lib getenv key (.int64 d) = .int64 n) := by
  have hne : ¬ toString n = "" := toString_int_ne_empty n
  constructor
  · intro _ hlo hhi
    have hp := ParseInt_toString lib.IntSize n hlo hhi
    simp only [GetEnv, hval, hne, if_false, Atoi, hp]
  · intro hlo hhi
    have hp := ParseInt_toString 64 n (by norm_num; exact hlo) (by norm_num; omega)
    simp only [GetEnv, hval, hne, if_false, hp]

theorem C16_integer_round_trip_witness :
    GetEnv lib64 (Getenv testEnviron) "TEST_INT_NEG" (.int 0) = .int (-42) ∧
    GetEnv lib64 (Getenv testEnviron) "TEST_INT64" (.int64 0) = .int64 9223372036854775807 :=
  ⟨(C16_integer_round_trip lib64 (Getenv testEnviron) "TEST_INT_NEG" (-42) 0 (by decide)).1
      (Or.inr rfl) (by decide) (by decide),
   (C16_integer_round_trip lib64 (Getenv testEnviron) "TEST_INT64" 9223372036854775807 0
      (by decide)).2 (by decide) (by decide)⟩

/-- C18: for a bool default `d`, `GetEnv` returns true when the variable holds "true" and false
when it holds "false", whatever `d` is; more generally every text that `strconv.ParseBool`
recognises (1, t, T, TRUE, true, True, 0, f, F, FALSE, false, False) decides the result, and the
default decides it only when the value is empty or not such a literal. -/
theorem C18_bool_overrides_default (lib : ParseCalls) (getenv : String → String)
    (key : String) (d : Bool) :
    (getenv key = "true" → GetEnv lib getenv key (.bool d) = .bool true) ∧
    (getenv key = "false" → GetEnv lib getenv key (.bool d) = .bool false) ∧
    (∀ b : Bool, ParseBool (getenv key) = some b → GetEnv lib getenv key (.bool d) = .bool b) ∧
    ((getenv key = "" ∨ ParseBool (getenv key) = none) →
      GetEnv lib getenv key (.bool d) = .bool d) ∧
    (∀ v : String, ParseBool v = some true ↔ v ∈ ["1", "t", "T", "TRUE", "true", "True"]) ∧
    (∀ v : String, ParseBool v = some false ↔ v ∈ ["0", "f", "F", "FALSE", "false", "False"]) ∧
    ParseBool "" = none := by
  have hgen : ∀ b : Bool, ParseBool (getenv key) = some b →
      GetEnv lib getenv key (.bool d) = .bool b := by
    intro b hb
    have hne : ¬ getenv key = "" := by
      intro he
      rw [he] at hb
      have h0 : ParseBool "" = none := by decide
      rw [h0] at hb
      cases hb
    simp [GetEnv, hne, hb]
  refine ⟨?_, ?_, hgen, ?_, ?_, ?_, by decide⟩
  · intro h
    exact hgen true (by rw [h]; decide)
  · intro h
    exact hgen false (by rw [h]; decide)
  · intro h
    rcases h with h | h
    · simp [GetEnv, h]
    · by_cases hv : getenv key = ""
      · simp [GetEnv, hv]
      · simp [GetEnv, hv, h]
  · intro v
    simp only [ParseBool, List.mem_cons, List.mem_singleton, List.not_mem_nil, or_false]
    constructor
    · intro h
      by_contra hn
      simp only [hn, if_false] at h
      split at h <;> simp at h
    · intro h
      simp only [h, if_true]
  · intro v
    simp only [ParseBool, List.mem_cons, List.mem_singleton, List.not_mem_nil, or_false]
    constructor
    · intro h
      by_cases ht : v = "1" ∨ v = "t" ∨ v = "T" ∨ v = "TRUE" ∨ v = "true" ∨ v = "True"
      · simp [ht] at h
      · simp only [ht, if_false] at h
        by_contra hn
        simp [hn] at h
    · intro h
      have ht : ¬ (v = "1" ∨ v = "t" ∨ v = "T" ∨ v = "TRUE" ∨ v = "true" ∨ v = "True") := by
        rcases h with h | h | h | h | h | h <;> (rw [h]; decide)
      simp only [ht, if_false, h, if_true]

theorem C18_bool_overrides_default_witness :
    GetEnv lib64 (Getenv testEnviron) "TEST_BOOL_TRUE" (.bool false) = .bool true ∧
    GetEnv lib64 (Getenv testEnviron) "TEST_BOOL_FALSE" (.bool true) = .bool false ∧
    GetEnv lib64 (Getenv testEnviron) "TEST_INT_INVALID" (.bool true) = .bool true :=
  ⟨(C18_bool_overrides_default lib64 (Getenv testEnviron) "TEST_BOOL_TRUE" false).1
      (by decide),
   (C18_bool_overrides_default lib64 (Getenv testEnviron) "TEST_BOOL_FALSE" true).2.1
      (by decide),
   (C18_bool_overrides_default lib64 (Getenv testEnviron) "TEST_INT_INVALID" true).2.2.2.1
      (Or.inr (by decide))⟩

/-! ## Splitting at every separator and trimming -/

theorem IndexRune_neg_of_not_mem (c : Char) :
    ∀ s : List Char, c ∉ s → IndexRune s c < 0 := by
  intro s
  induction s with
  | nil => intro _; simp [IndexRune]
  | cons b rest ih =>
    intro h
    have hb : b ≠ c := fun e => h (by simp [e])
    have hr : c ∉ rest := fun e => h (by simp [e])
    simp [IndexRune, hb, ih hr]

theorem IndexRune_of_mem (c : Char) :
    ∀ s : List Char, c ∈ s →
      0 ≤ IndexRune s c ∧
      (IndexRune s c).toNat = (s.takeWhile (fun b => decide (b ≠ c))).length := by
  intro s
  induction s with
  | nil => intro h; simp at h
  | cons b rest ih =>
    intro h
    by_cases hb : b = c
    · simp [IndexRune, hb]
    · have hr : c ∈ rest := by
        rcases List.mem_cons.mp h with e | e
        · exact absurd e.symm hb
        · exact e
      obtain ⟨h0, h1⟩ := ih hr
      have hn : ¬ IndexRune rest c < 0 := not_lt.mpr h0
      simp only [IndexRune, hb, if_false, hn]
      refine ⟨by omega, ?_⟩
      simp only [ne_eq, hb, not_false_eq_true, decide_True, List.takeWhile_cons_of_pos,
        List.length_cons]
      simp only [ne_eq] at h1
      omega

theorem intercalate_cons_cons {α : Type} (sep a b : List α) (rest : List (List α)) :
    sep.intercalate (a :: b :: rest) = a ++ sep ++ sep.intercalate (b :: rest) := by
  simp [List.intercalate, List.intersperse]

theorem takeWhile_sep_dropWhile (c : Char) :
    ∀ s : List Char, c ∈ s →
      s = s.takeWhile (fun b => decide (b ≠ c)) ++ c
        :: (s.dropWhile (fun b => decide (b ≠ c))).tail := by
  intro s
  induction s with
  | nil => intro h; simp at h
  | cons a t ih =>
    intro h
    by_cases ha : a = c
    · simp [List.takeWhile_cons, List.dropWhile_cons, ha]
    · have ht : c ∈ t := by
        rcases List.mem_cons.mp h with e | e
        · exact absurd e.symm ha
        · exact e
      have := ih ht
      simp only [ne_eq] at this
      simp only [ne_eq, List.takeWhile_cons, ha, not_false_eq_true, decide_True, if_true,
        List.dropWhile_cons, List.cons_append, List.cons.injEq, true_and]
      exact this

theorem not_mem_takeWhile_ne_char (c : Char) (s : List Char) :
    c ∉ s.takeWhile (fun b => decide (b ≠ c)) := by
  intro h
  have := List.mem_takeWhile_imp h
  simp at this

/-- The loop of `genSplit`, given as many iterations as there are separators, cuts at every
separator. -/
theorem genSplitRunesLoop_spec (sep : Char) :
    ∀ (k : Nat) (s : List Char), s.count sep = k →
      (genSplitRunesLoop sep 0 k s).length = k + 1 ∧
      (∀ p ∈ genSplitRunesLoop sep 0 k s, sep ∉ p) ∧
      [sep].intercalate (genSplitRunesLoop sep 0 k s) = s := by
  intro k
  induction k with
  | zero =>
    intro s hs
    have hnot : sep ∉ s := List.count_eq_zero.mp hs
    simp only [genSplitRunesLoop]
    refine ⟨rfl, ?_, ?_⟩
    · intro p hp
      have : p = s := by simpa using hp
      rw [this]
      exact hnot
    · simp [List.intercalate, List.intersperse]
  | succ k ih =>
    intro s hs
    have hmem : sep ∈ s := by
      apply List.count_pos_iff.mp
      omega
    obtain ⟨h0, h1⟩ := IndexRune_of_mem sep s hmem
    have hn : ¬ IndexRune s sep < 0 := not_lt.mpr h0
    have hdecomp := takeWhile_sep_dropWhile sep s hmem
    have hd : s.drop ((s.takeWhile (fun b => decide (b ≠ sep))).length + 1)
        = (s.dropWhile (fun b => decide (b ≠ sep))).tail := by
      rw [← List.drop_drop, drop_length_takeWhile]
      simp
    have hcount : ((s.dropWhile (fun b => decide (b ≠ sep))).tail).count sep = k := by
      have hc := congrArg (List.count sep) hdecomp
      rw [List.count_append, List.count_cons_self,
        List.count_eq_zero.mpr (not_mem_takeWhile_ne_char sep s)] at hc
      omega
    obtain ⟨ih1, ih2, ih3⟩ := ih _ hcount
    simp only [genSplitRunesLoop, hn, if_false, Nat.add_zero, h1, take_length_takeWhile, hd]
    refine ⟨by rw [List.length_cons, ih1], ?_, ?_⟩
    · intro p hp
      rcases List.mem_cons.mp hp with e | e
      · rw [e]
        exact not_mem_takeWhile_ne_char sep s
      · exact ih2 p e
    · cases hl : genSplitRunesLoop sep 0 k (s.dropWhile (fun b => decide (b ≠ sep))).tail with
      | nil =>
        rw [hl] at ih1
        simp at ih1
      | cons b rest =>
        rw [hl] at ih3
        rw [intercalate_cons_cons, ih3]
        simp only [List.append_assoc, List.singleton_append]
        exact hdecomp.symm

theorem genSplitRunes_all (s : List Char) (sep : Char) :
    genSplitRunes s sep 0 (-1) = genSplitRunesLoop sep 0 (s.count sep) s := by
  have hle : s.count sep ≤ s.length := List.count_le_length sep s
  have h1 : ¬ ((-1 : Int) = 0) := by decide
  have h2 : (-1 : Int) < 0 := by decide
  have h3 : ¬ ((s.count sep : Int) + 1 > (s.length : Int) + 1) := by omega
  have h4 : ((s.count sep : Int) + 1 - 1).toNat = s.count sep := by omega
  simp only [genSplitRunes, h1, h2, if_true, if_false, h3, h4]

theorem TrimSpace_no_outer_space (s : String) :
    (∀ c : Char, (TrimSpace s).toList.head? = some c → IsSpace c = false) ∧
    (∀ c : Char, (TrimSpace s).toList.getLast? = some c → IsSpace c = false) := by
  have hdata : (TrimSpace s).toList = (s.toList.dropWhile IsSpace).rdropWhile IsSpace := rfl
  rw [hdata]
  constructor
  · intro c hc
    have hpre : (s.toList.dropWhile IsSpace).rdropWhile IsSpace <+: s.toList.dropWhile IsSpace :=
      List.rdropWhile_prefix IsSpace _
    obtain ⟨t, ht⟩ := hpre
    cases hr : (s.toList.dropWhile IsSpace).rdropWhile IsSpace with
    | nil => rw [hr] at hc; simp at hc
    | cons a rest =>
      rw [hr] at hc ht
      have hac : a = c := by simpa using hc
      have hh := List.head?_dropWhile_not IsSpace s.toList
      rw [← ht] at hh
      simp only [List.cons_append, List.head?_cons] at hh
      rw [← hac]
      exact hh
  · intro c hc
    cases hr : (s.toList.dropWhile IsSpace).rdropWhile IsSpace with
    | nil => rw [hr] at hc; simp at hc
    | cons a rest =>
      have hne : (s.toList.dropWhile IsSpace).rdropWhile IsSpace ≠ [] := by
        rw [hr]; simp
      have hlast := List.rdropWhile_last_not IsSpace (s.toList.dropWhile IsSpace) hne
      have hget : ((s.toList.dropWhile IsSpace).rdropWhile IsSpace).getLast? = some c := hc
      rw [List.getLast?_eq_getLast _ hne] at hget
      have : ((s.toList.dropWhile IsSpace).rdropWhile IsSpace).getLast hne = c := by
        simpa using hget
      rw [this] at hlast
      simpa using hlast

/-- C17: for a non-empty value `v` and a `[]string` default, `GetEnv` returns the pieces of `v`
between its commas, each with leading and trailing white space removed, in order: there are
exactly (number of commas in `v`) + 1 of them, the untrimmed pieces contain no comma and joined
with commas give `v` back, no returned piece starts or ends with white space, and the values
"item1, item2, item3" and "item1,item2,item3" give the same list. -/
theorem C17_string_slice_split_and_trim (lib : ParseCalls) (getenv : String → String)
    (key : String) (d : List String) (v : String) (hval : getenv key = v) (hne : v ≠ "") :
    GetEnv lib getenv key (.strings d) = .strings ((Split v ',').map TrimSpace) ∧
    ((Split v ',').map TrimSpace).length = v.toList.count ',' + 1 ∧
    (∀ p ∈ Split v ',', ',' ∉ p.toList) ∧
    [','].intercalate ((Split v ',').map String.toList) = v.toList ∧
    (∀ r ∈ (Split v ',').map TrimSpace,
      (∀ c : Char, r.toList.head? = some c → IsSpace c = false) ∧
      (∀ c : Char, r.toList.getLast? = some c → IsSpace c = false)) ∧
    GetEnv lib (fun _ => "item1, item2, item3") key (.strings d)
      = GetEnv lib (fun _ => "item1,item2,item3") key (.strings d) ∧
    GetEnv lib (fun _ => "item1, item2, item3") key (.strings d)
      = .strings ["item1", "item2", "item3"] := by
  obtain ⟨h1, h2, h3⟩ := genSplitRunesLoop_spec ',' (v.toList.count ',') v.toList rfl
  have hsplit : Split v ',' = (genSplitRunesLoop ',' 0 (v.toList.count ',') v.toList).map
      String.mk := by
    simp only [Split, genSplitRunes_all]
  refine ⟨?_, ?_, ?_, ?_, ?_, ?_, ?_⟩
  · simp only [GetEnv, hval, hne, if_false]
  · rw [List.length_map, hsplit, List.length_map, h1]
  · intro p hp
    rw [hsplit] at hp
    obtain ⟨q, hq, rfl⟩ := List.mem_map.mp hp
    exact h2 q hq
  · rw [hsplit, List.map_map]
    have : (String.toList ∘ String.mk) = (id : List Char → List Char) := by
      funext l
      rfl
    rw [this, List.map_id]
    exact h3
  · intro r hr
    obtain ⟨p, _, rfl⟩ := List.mem_map.mp hr
    exact TrimSpace_no_outer_space p
  · have ha : (Split "item1, item2, item3" ',').map TrimSpace = ["item1", "item2", "item3"] := by
      decide
    have hb : (Split "item1,item2,item3" ',').map TrimSpace = ["item1", "item2", "item3"] := by
      decide
    have hna : ¬ ("item1, item2, item3" = "") := by decide
    have hnb : ¬ ("item1,item2,item3" = "") := by decide
    simp only [GetEnv, hna, hnb, if_false, ha, hb]
  · have ha : (Split "item1, item2, item3" ',').map TrimSpace = ["item1", "item2", "item3"] := by
      decide
    have hna : ¬ ("item1, item2, item3" = "") := by decide
    simp only [GetEnv, hna, if_false, ha]

theorem C17_string_slice_split_and_trim_witness :
    GetEnv lib64 (Getenv testEnviron) "TEST_STRING_SLICE_SPACES" (.strings ["default"])
      = .strings ((Split "item1, item2, item3" ',').map TrimSpace) ∧
    ((Split "item1, item2, item3" ',').map TrimSpace).length
      = "item1, item2, item3".toList.count ',' + 1 :=
  have h := C17_string_slice_split_and_trim lib64 (Getenv testEnviron)
    "TEST_STRING_SLICE_SPACES" ["default"] "item1, item2, item3" (by decide) (by decide)
  ⟨h.1, h.2.1⟩

/-! ## Claims about `Object.ReadAt` -/

/-- C19, as stated, fails for an empty buffer: with `off = 5` and `L = 0` the Range header is
"bytes=5-4", whose first bound exceeds its last, and with `off = 0` it is "bytes=0--1". It also
fails when `off + L - 1` exceeds the largest int64: for `off = 9223372036854775807` and `L = 2`
the last bound wraps around to -9223372036854775808. -/
theorem C19_counterexample :
    (Object.ReadAt s3FourBytes ⟨"templates", "b1/rootfs"⟩ 0 5).request.Range = "bytes=5-4" ∧
    rangeBounds 0 5 = (5, 4) ∧ ¬ ((rangeBounds 0 5).1 ≤ (rangeBounds 0 5).2) ∧
    (Object.ReadAt s3FourBytes ⟨"templates", "b1/rootfs"⟩ 0 0).request.Range = "bytes=0--1" ∧
    rangeBounds 2 9223372036854775807 = (9223372036854775807, -9223372036854775808) ∧
    ¬ ((rangeBounds 2 9223372036854775807).1 ≤ (rangeBounds 2 9223372036854775807).2) := by
  decide

/-- C19, amended: for every offset `off >= 0` and every buffer of length `L >= 1` such that
`off + L - 1` does not exceed the largest int64, `Object.ReadAt` requests the Range
"bytes=off-(off+L-1)"; its inclusive bounds satisfy first <= last and cover exactly the `L`
positions of the half-open interval from `off` to `off + L`. For `L = 0` the bounds are `off`
and `off - 1`. -/
theorem C19_range_of_nonempty_buffer (s3 : S3Calls) (o : Object) (L : Nat) (off : Int)
    (hoff : 0 ≤ off) (hfit : off + (L : Int) - 1 ≤ 9223372036854775807) :
    (1 ≤ L →
      (Object.ReadAt s3 o L off).request.Range
        = "bytes=" ++ toString off ++ "-" ++ toString (off + (L : Int) - 1) ∧
      (Object.ReadAt s3 o L off).request.Bucket = o.bucketName ∧
      (Object.ReadAt s3 o L off).request.Key = o.key ∧
      rangeBounds L off = (off, off + (L : Int) - 1) ∧
      (rangeBounds L off).1 ≤ (rangeBounds L off).2 ∧
      (rangeBounds L off).2 - (rangeBounds L off).1 + 1 = (L : Int) ∧
      (∀ p : Int, ((rangeBounds L off).1 ≤ p ∧ p ≤ (rangeBounds L off).2)
        ↔ (off ≤ p ∧ p < off + (L : Int)))) ∧
    (L = 0 → rangeBounds L off = (off, off - 1)) := by
  have hb : rangeBounds L off = (off, off + (L : Int) - 1) := by
    unfold rangeBounds wrapInt64
    have hL : (0 : Int) ≤ (L : Int) := Int.ofNat_nonneg L
    congr 1
    omega
  have hreq : (Object.ReadAt s3 o L off).request
      = { Bucket := o.bucketName, Key := o.key, Range := rangeHeader L off } := by
    cases h : s3.GetObject { Bucket := o.bucketName, Key := o.key, Range := rangeHeader L off }
      <;> simp only [Object.ReadAt, h]
  constructor
  · intro hL
    refine ⟨?_, ?_, ?_, hb, ?_, ?_, ?_⟩
    · rw [hreq]
      simp only [rangeHeader, hb]
    · rw [hreq]
    · rw [hreq]
    · rw [hb]
      simp only
      omega
    · rw [hb]
      simp only
      omega
    · intro p
      rw [hb]
      simp only
      omega
  · intro hL
    rw [hb, hL]
    simp

theorem C19_range_of_nonempty_buffer_witness :
    (Object.ReadAt s3FourBytes ⟨"templates", "b1/rootfs"⟩ 4096 8192).request.Range
      = "bytes=" ++ toString (8192 : Int) ++ "-"
        ++ toString ((8192 : Int) + ((4096 : Nat) : Int) - 1) ∧
    rangeBounds 4096 8192 = ((8192 : Int), (8192 : Int) + ((4096 : Nat) : Int) - 1) :=
  have h := (C19_range_of_nonempty_buffer s3FourBytes ⟨"templates", "b1/rootfs"⟩ 4096 8192
    (by decide) (by decide)).1 (by decide)
  ⟨h.1, h.2.2.2.1⟩

/-! ## Claims about the reverse proxy -/

/-- C20, as stated, fails: on AWS a PATCH whose URL starts with the upload prefix and that
carries no Authorization header is forwarded with `store.ServeHTTP`; a request for `/health`
without the header is answered by the health check; and a POST to `/v2/token` without the header
is answered with 404. None of the three gets the unauthorized response. -/
theorem C20_counterexample :
    rootHandler proxyOnAWS
        { Method := "PATCH", URLString := "/v2/e2b/custom-envs/blobs/uploads/abc?digest=1",
          URLPath := "/v2/e2b/custom-envs/blobs/uploads/abc", Authorization := "" }
      = [.logPrintf "Request: PATCH /v2/e2b/custom-envs/blobs/uploads/abc?digest=1\n",
         .ServeHTTP] ∧
    rootHandler proxyOnAWS
        { Method := "GET", URLString := "/health", URLPath := "/health", Authorization := "" }
      = [.logPrintf "Request: GET /health\n", .HealthCheck] ∧
    rootHandler proxyOnAWS
        { Method := "POST", URLString := "/v2/token", URLPath := "/v2/token",
          Authorization := "" }
      = [.logPrintf "Request: POST /v2/token\n", .WriteHeader 404] := by
  decide

/-- C20, amended: for every request that carries no Authorization header and that is not
answered earlier in the handler (its path is not `/health`, it is not a PATCH answered by the
upload branch, and it is not a POST to `/v2/token`), the root handler answers with the Docker
unauthorized response and forwards nothing: it logs the request and the missing header, calls
`utils.SetDockerUnauthorizedHeaders`, and calls neither `store.ServeHTTP` nor `store.Proxy`,
whatever the method and path. -/
theorem C20_unauthorized_unless_answered_earlier (cfg : ProxyCalls) (req : Request)
    (hauth : req.Authorization = "")
    (hhealth : req.URLPath ≠ "/health")
    (hupload : answeredByUploadBranch cfg req = false)
    (htoken : ¬ (req.URLPath = "/v2/token" ∧ req.Method = MethodPost)) :
    rootHandler cfg req
      = [.logPrintf ("Request: " ++ req.Method ++ " " ++ cfg.SubstringMax req.URLString 100
            ++ "\n"),
         .logPrintf ("Authorization header is missing: " ++ cfg.SubstringMax req.URLString 100
            ++ "\n"),
         .SetDockerUnauthorizedHeaders] ∧
    HandlerEffect.ServeHTTP ∉ rootHandler cfg req ∧
    HandlerEffect.Proxy ∉ rootHandler cfg req ∧
    HandlerEffect.SetDockerUnauthorizedHeaders ∈ rootHandler cfg req := by
  have hrest : rootHandlerFromTokenCheck cfg req
      = [.logPrintf ("Authorization header is missing: " ++ cfg.SubstringMax req.URLString 100
            ++ "\n"),
         .SetDockerUnauthorizedHeaders] := by
    simp only [rootHandlerFromTokenCheck, htoken, if_false, hauth, if_true]
  have hmain : rootHandler cfg req
      = [.logPrintf ("Request: " ++ req.Method ++ " " ++ cfg.SubstringMax req.URLString 100
            ++ "\n"),
         .logPrintf ("Authorization header is missing: " ++ cfg.SubstringMax req.URLString 100
            ++ "\n"),
         .SetDockerUnauthorizedHeaders] := by
    unfold rootHandler
    simp only [hhealth, if_false]
    by_cases hm : req.Method = MethodPatch
    · simp only [answeredByUploadBranch, hm, beq_self_eq_true, Bool.true_and,
        Bool.or_eq_false_iff, Bool.and_eq_false_iff] at hupload
      obtain ⟨hg, ha⟩ := hupload
      have hgcp : ¬ (cfg.CurrentCloudProvider = cfg.GCP
          ∧ HasPrefix req.URLString cfg.GCPArtifactUploadPrefix = true) := by
        rintro ⟨h1, h2⟩
        rcases hg with hg | hg
        · simp [h1] at hg
        · rw [h2] at hg; cases hg
      simp only [hm, if_true, hgcp, if_false]
      by_cases haws : cfg.CurrentCloudProvider = cfg.AWS
      · simp only [haws, if_true]
        rcases ha with ha | ha
        · simp [haws] at ha
        · cases hp : cfg.GetAWSUploadPrefix with
          | error err => rw [hp] at ha; cases ha
          | ok uploadPrefix =>
            rw [hp] at ha
            simp only at ha
            simp only [ha, Bool.false_eq_true, if_false, hrest]
      · simp only [haws, if_false, hrest]
    · simp only [hm, if_false, hrest]
  refine ⟨hmain, ?_, ?_, ?_⟩ <;> rw [hmain] <;> simp

theorem C20_unauthorized_unless_answered_earlier_witness :
    rootHandler proxyOnAWS
        { Method := "GET", URLString := "/v2/e2b/custom-envs/manifests/latest",
          URLPath := "/v2/e2b/custom-envs/manifests/latest", Authorization := "" }
      = [.logPrintf ("Request: " ++ "GET" ++ " "
            ++ proxyOnAWS.SubstringMax "/v2/e2b/custom-envs/manifests/latest" 100 ++ "\n"),
         .logPrintf ("Authorization header is missing: "
            ++ proxyOnAWS.SubstringMax "/v2/e2b/custom-envs/manifests/latest" 100 ++ "\n"),
         .SetDockerUnauthorizedHeaders] :=
  (C20_unauthorized_unless_answered_earlier proxyOnAWS
    { Method := "GET", URLString := "/v2/e2b/custom-envs/manifests/latest",
      URLPath := "/v2/e2b/custom-envs/manifests/latest", Authorization := "" }
    rfl (by decide) (by decide) (by decide)).1

/-! ## Keys used by `Get` and by `Add`

`newStorageDiff`, `CacheKey` and `storagePath` are declared outside the given sources, so
whether the two keys coincide is not decided here; the two facts below are what `cache.go`
itself settles. -/

/-- When the key derived by `Get` equals the key under which `Add` stored, a `Get` issued after
`Add(buildId, t, d)` and before expiry is a hit: it returns `d`, no error, and calls no `Init`. -/
theorem DiffStore.Get_after_Add_of_same_key (kd : KeyDerivation)
    (Init : DiffObj → Option GoError) (now now₁ : Time) (addr : Nat) (s : DiffStore)
    (buildId : String) (t : DiffType) (blockSize : Int) (d : DiffObj)
    (hkey : kd.cacheKey buildId t blockSize = kd.storagePath buildId t)
    (hle : now₁ ≤ now + buildExpiration) :
    (DiffStore.Get kd Init now₁ addr (DiffStore.Add kd now s buildId t (some d))
        buildId t blockSize).value = some d ∧
    (DiffStore.Get kd Init now₁ addr (DiffStore.Add kd now s buildId t (some d))
        buildId t blockSize).err = none ∧
    (DiffStore.Get kd Init now₁ addr (DiffStore.Add kd now s buildId t (some d))
        buildId t blockSize).calls = [] := by
  apply DiffStore.Get_hit kd Init now₁ addr _ buildId t blockSize
    (newItem now (kd.storagePath buildId t) (some d) buildExpiration)
  · have hf := (Cache.find_Set_self s.cache now (kd.storagePath buildId t) (some d)
      buildExpiration buildExpiration_ne_default).2
    simp only [DiffStore.Add, Cache.live, hkey, hf, newItem_live now now₁ _ _ hle]
    rfl
  · rfl

/-- A key derived by `Get` that determines the block size cannot equal the key of `Add`, which
does not depend on the block size, for two different block sizes. -/
theorem KeyDerivation.same_key_for_one_block_size (kd : KeyDerivation)
    (hinj : ∀ (b₁ b₂ : String) (t₁ t₂ : DiffType) (s₁ s₂ : Int),
      kd.cacheKey b₁ t₁ s₁ = kd.cacheKey b₂ t₂ s₂ → b₁ = b₂ ∧ t₁ = t₂ ∧ s₁ = s₂)
    (buildId : String) (t : DiffType) (s₁ s₂ : Int)
    (h₁ : kd.cacheKey buildId t s₁ = kd.storagePath buildId t)
    (h₂ : kd.cacheKey buildId t s₂ = kd.storagePath buildId t) : s₁ = s₂ :=
  (hinj buildId buildId t t s₁ s₂ (h₁.trans h₂.symm)).2.2

/-! ## Claims about `CheckRequired` -/

/-- C21: for every combination of the three settings, `CheckRequired` returns nil if and only
if the account id, the ECR repository and the region are all non-empty; otherwise it returns an
error that wraps nothing and whose message is "missing environment variables: " followed by the
names of exactly the empty settings, in the fixed order AWS_ACCOUNT_ID, AWS_ECR_REPOSITORY,
AWS_REGION, joined by ", ". -/
theorem C21_check_required_names_empty_settings (AWSAccountID ECRRepository AWSRegion : String) :
    (CheckRequired AWSAccountID ECRRepository AWSRegion = none
      ↔ (AWSAccountID ≠ "" ∧ ECRRepository ≠ "" ∧ AWSRegion ≠ "")) ∧
    (¬ (AWSAccountID ≠ "" ∧ ECRRepository ≠ "" ∧ AWSRegion ≠ "") →
      CheckRequired AWSAccountID ECRRepository AWSRegion
        = some (errorsNew ("missing environment variables: " ++ ", ".intercalate
            (([("AWS_ACCOUNT_ID", AWSAccountID), ("AWS_ECR_REPOSITORY", ECRRepository),
               ("AWS_REGION", AWSRegion)].filter (fun p => decide (p.2 = ""))).map
              (fun p => p.1))))) ∧
    (∀ err : GoError, CheckRequired AWSAccountID ECRRepository AWSRegion = some err →
      err.Unwrap = none ∧
      ∃ names : List String,
        err.Error = "missing environment variables: " ++ ", ".intercalate names ∧
        names ≠ [] ∧
        names.Sublist ["AWS_ACCOUNT_ID", "AWS_ECR_REPOSITORY", "AWS_REGION"] ∧
        ("AWS_ACCOUNT_ID" ∈ names ↔ AWSAccountID = "") ∧
        ("AWS_ECR_REPOSITORY" ∈ names ↔ ECRRepository = "") ∧
        ("AWS_REGION" ∈ names ↔ AWSRegion = "")) ∧
    CheckRequired "" "" ""
      = some (errorsNew
          "missing environment variables: AWS_ACCOUNT_ID, AWS_ECR_REPOSITORY, AWS_REGION") := by
  refine ⟨?_, ?_, ?_, by decide⟩
  · by_cases ha : AWSAccountID = "" <;> by_cases he : ECRRepository = ""
      <;> by_cases hr : AWSRegion = "" <;> simp [CheckRequired, ha, he, hr]
  · intro _
    by_cases ha : AWSAccountID = "" <;> by_cases he : ECRRepository = ""
      <;> by_cases hr : AWSRegion = "" <;> simp_all [CheckRequired]
  · intro err herr
    by_cases ha : AWSAccountID = "" <;> by_cases he : ECRRepository = ""
      <;> by_cases hr : AWSRegion = ""
    all_goals
      simp only [CheckRequired, ha, he, hr, if_true, if_false, List.nil_append,
        List.cons_append, List.length_cons, List.length_nil] at herr
    all_goals first
      | (simp at herr; done)
      | (have herr' : _ = err := Option.some.inj (by simpa using herr)
         subst herr'
         refine ⟨rfl, _, rfl, by simp, by decide, ?_, ?_, ?_⟩ <;> simp [ha, he, hr])

theorem C21_check_required_names_empty_settings_witness :
    CheckRequired "123456789012" "e2b-custom-environments" "us-east-1" = none ∧
    CheckRequired "" "e2b-custom-environments" ""
      = some (errorsNew "missing environment variables: AWS_ACCOUNT_ID, AWS_REGION") :=
  ⟨(C21_check_required_names_empty_settings "123456789012" "e2b-custom-environments"
      "us-east-1").1.mpr (by decide),
   ((C21_check_required_names_empty_settings "" "e2b-custom-environments" "").2.1
      (by decide)).trans (by decide)⟩

end E2B
